import Mathlib

/-!
Verification of the StreakArena rock/paper/scissors matchmaking service.

This file shallowly embeds the server request handlers
(`src/app/api/match/route.ts`, `src/app/api/game/choose/route.ts`,
`src/app/api/game/session/abandon/route.ts`), the PartyKit relay room
(`partykit` GameServer), the pure round-outcome function (`src/lib/rps.ts`)
and the relevant pure fragment of the client reconciliation component
(`src/components/RPSGame.tsx`) as Lean functions over an explicit store
state, and proves the specified properties about them.

Modelling conventions:
* The relational store (Supabase) is a record of lists of rows; a filtered
  `update` is a `List.map` that patches every row matching the filter, and
  `.select().single()` after an update is modelled by `List.find?` on the
  filter (`condUpdate`).
* `order(...).limit(1).single()` queries are modelled by `earliestBy` /
  `latestBy`, which pick the first row attaining the minimal / maximal key.
* JSON `round_choices` maps `{player1, player2}` are modelled by two
  `Option Choice` fields.
* Request handlers are pure functions `Store → ... → Store × ApiResp ×
  List Broadcast`; the broadcast list records the realtime-relay pushes the
  handler fires.  Timestamps are passed in as a `now : Nat` argument.
* Environment-only data (cookies, relay host) is outside the model: the
  caller's player id is passed directly and looked up in the players table.
-/

/-- The three RPS choices (`VALID_CHOICES` in `src/lib/rps.ts`). -/
inductive Choice
  | rock
  | paper
  | scissors
deriving DecidableEq, Repr

/-- Result of `determineWinner`: `'player1' | 'player2' | 'draw'`. -/
inductive RoundOutcome
  | player1
  | player2
  | draw
deriving DecidableEq, Repr

/-- `determineWinner` from `src/lib/rps.ts`. -/
def determineWinner (c1 c2 : Choice) : RoundOutcome :=
  if c1 = c2 then .draw
  else if (c1 = .rock ∧ c2 = .scissors) ∨ (c1 = .scissors ∧ c2 = .paper) ∨
      (c1 = .paper ∧ c2 = .rock) then .player1
  else .player2

/-- `game_sessions.status` enumeration. -/
inductive SessionStatus
  | waiting
  | playing
  | finished
  | cancelled
deriving DecidableEq, Repr

/-- The `round_result` JSON column. -/
structure RoundResult where
  winner : RoundOutcome
  player1_choice : Choice
  player2_choice : Choice
deriving DecidableEq, Repr

/-- A `game_sessions` row. -/
structure GameSession where
  id : Nat
  game_id : Nat
  player1_id : Nat
  player2_id : Option Nat
  winner_id : Option Nat
  current_streak : Nat
  status : SessionStatus
  choice1 : Option Choice
  choice2 : Option Choice
  round_result : Option RoundResult
  created_at : Nat
  updated_at : Nat
deriving DecidableEq, Repr

/-- A `players` row (fields the handlers read). -/
structure PlayerRow where
  id : Nat
  nickname : String
  country_flag : Option String
deriving DecidableEq, Repr

/-- The `games.current_champion` JSON column. -/
structure Champion where
  player_name : String
  streak : Nat
  country_flag : Option String
deriving DecidableEq, Repr

/-- A `games` row (fields the handlers read/write). -/
structure GameRow where
  id : Nat
  slug : String
  is_active : Bool
  current_champion : Option Champion
deriving DecidableEq, Repr

/-- A `rankings` row. -/
structure Ranking where
  id : Nat
  game_id : Nat
  player_id : Nat
  player_name : String
  country_flag : Option String
  streak_count : Nat
  achieved_at : Nat
deriving DecidableEq, Repr

/-- The relational store.  `nextSessionId`/`nextRankingId` model primary-key
generation for inserts. -/
structure Store where
  players : List PlayerRow
  games : List GameRow
  sessions : List GameSession
  rankings : List Ranking
  nextSessionId : Nat
  nextRankingId : Nat
deriving DecidableEq, Repr

/-- A JSON HTTP response from a handler. -/
structure ApiResp where
  status : Nat
  error : Option String
  session : Option GameSession
  cancelled : Bool
deriving DecidableEq, Repr

/-- Realtime-relay pushes fired by a handler (`broadcastSessionUpdate` /
`broadcastSessionEnd` in `src/lib/partykit.ts`). -/
inductive Broadcast
  | sessionUpdate (sid : Nat) (s : GameSession)
  | sessionEnd (sid : Nat) (s : GameSession)
deriving DecidableEq, Repr

def okResp (s : GameSession) : ApiResp := ⟨200, none, some s, false⟩

def errResp (st : Nat) (msg : String) : ApiResp := ⟨st, some msg, none, false⟩

/-- `{cancelled: true}` success response of the abandon route. -/
def cancelledResp : ApiResp := ⟨200, none, none, true⟩

/-- A filtered `update(...)` with `.select('*').single()`: patch every row
matching `p`, and also return the (first) patched row, if any. -/
def condUpdate (rows : List GameSession) (p : GameSession → Bool)
    (f : GameSession → GameSession) : List GameSession × Option GameSession :=
  (rows.map fun r => if p r then f r else r, (rows.find? p).map f)

/-- `order(key, ascending).limit(1).single()`: first row attaining the
minimal key. -/
def earliestBy (f : GameSession → Nat) : List GameSession → Option GameSession
  | [] => none
  | x :: xs =>
    match earliestBy f xs with
    | none => some x
    | some y => if f y < f x then some y else some x

/-- `order(key, descending).limit(1).single()`: first row attaining the
maximal key. -/
def latestBy (f : GameSession → Nat) : List GameSession → Option GameSession
  | [] => none
  | x :: xs =>
    match latestBy f xs with
    | none => some x
    | some y => if f y > f x then some y else some x

/-! ## Round Resolver: POST /api/game/choose -/

/-- The new streak written by the resolving update: increment on a
player-1 win, 0 on a player-2 win or a draw (the session carries slot 1's
streak). -/
def resolveStreakOf (s : GameSession) : RoundOutcome → Nat
  | .player1 => s.current_streak + 1
  | .player2 => 0
  | .draw => 0

/-- The winner id written by the resolving update (none on draw). -/
def resolveWinnerOf (s : GameSession) : RoundOutcome → Option Nat
  | .player1 => some s.player1_id
  | .player2 => s.player2_id
  | .draw => none

/-- The row patch of the intermediate (one choice so far) update. -/
def chooseWritePatch (c1 c2 : Option Choice) (now : Nat) (s : GameSession) :
    GameSession :=
  { s with choice1 := c1, choice2 := c2, updated_at := now }

/-- The session-row patch applied by the resolving update of
`POST /api/game/choose` (`updateData` with `status: 'finished'`;
`winner_id` is included only when a winner exists). -/
def resolvePatch (a b : Choice) (rr : RoundResult) (newStreak : Nat)
    (winnerId : Option Nat) (now : Nat) (s : GameSession) : GameSession :=
  let s' := { s with choice1 := some a, choice2 := some b,
                     round_result := some rr, current_streak := newStreak,
                     status := .finished, updated_at := now }
  match winnerId with
  | some w => { s' with winner_id := some w }
  | none => s'

/-- The ranking upsert of `POST /api/game/choose`: update the existing
`(game, player)` row only when the new streak strictly exceeds the stored
best, insert when no row exists, otherwise leave the table unchanged. -/
def upsertRanking (rks : List Ranking) (nextId gid pid : Nat)
    (name : String) (flag : Option String) (streak now : Nat) :
    List Ranking × Nat :=
  match rks.find? (fun r => decide (r.game_id = gid ∧ r.player_id = pid)) with
  | some er =>
    if er.streak_count < streak then
      (rks.map fun r =>
        if r.id = er.id then
          { r with streak_count := streak, player_name := name,
                   country_flag := flag, achieved_at := now }
        else r,
       nextId)
    else (rks, nextId)
  | none =>
    (rks ++ [⟨nextId, gid, pid, name, flag, streak, now⟩], nextId + 1)

/-- The `games.current_champion` recomputation at the end of
`POST /api/game/choose`: take the top ranking row for the game (by streak,
descending) and write it into the game row. -/
def updateChampion (games : List GameRow) (rks : List Ranking) (gid : Nat) :
    List GameRow :=
  let top := (rks.filter (fun r => decide (r.game_id = gid))).foldl
    (fun acc r =>
      match acc with
      | none => some r
      | some t => if r.streak_count > t.streak_count then some r else some t)
    none
  match top with
  | some t =>
    games.map fun g =>
      if g.id = gid then
        { g with
            current_champion := some ⟨t.player_name, t.streak_count, t.country_flag⟩ }
      else g
  | none => games

/-- The streak written to the winner's ranking row.  For a slot-1 winner it
is the session's new streak; for a slot-2 winner the handler reconstructs
it from that player's most recent finished session in the game (ordered by
`updated_at`, descending), run against the store *after* the resolving
session update. -/
def streakForRanking (sessions : List GameSession) (gid pid : Nat)
    (isP2 : Bool) (newStreak : Nat) : Nat :=
  if isP2 then
    let myLast := latestBy (·.updated_at) (sessions.filter fun s =>
      decide (s.game_id = gid ∧ s.status = .finished ∧
        (s.player1_id = pid ∨ s.player2_id = some pid)))
    let prev :=
      match myLast with
      | some m => if m.winner_id = some pid then m.current_streak else 0
      | none => 0
    prev + 1
  else newStreak

/-- The ranking-and-champion block of `POST /api/game/choose`, executed only
when the requester is the (non-draw) winner. -/
def rankingFlow (S : Store) (gid pid : Nat) (isP2 : Bool)
    (newStreak now : Nat) : Store :=
  let streak := streakForRanking S.sessions gid pid isP2 newStreak
  match S.players.find? (fun p => decide (p.id = pid)) with
  | none => S
  | some wp =>
    let ur :=
      upsertRanking S.rankings S.nextRankingId gid pid wp.nickname
        wp.country_flag streak now
    { S with rankings := ur.1, nextRankingId := ur.2,
             games := updateChampion S.games ur.1 gid }

/-- `POST /api/game/choose` (Round Resolver), from
`src/app/api/game/choose/route.ts`.  Returns the updated store, the HTTP
response, and the relay broadcasts fired. -/
def submitChoice (S : Store) (pid sid : Nat) (choice : Choice) (now : Nat) :
    Store × ApiResp × List Broadcast :=
  match S.players.find? (fun p => decide (p.id = pid)) with
  | none => (S, errResp 400 "Player not found", [])
  | some _ =>
    match S.sessions.find?
        (fun s => decide (s.id = sid ∧ s.status = .playing)) with
    | none => (S, errResp 404 "Game session not found or not playing", [])
    | some session =>
      let isP1 := session.player1_id = pid
      let isP2 := session.player2_id = some pid
      if ¬isP1 ∧ ¬isP2 then (S, errResp 403 "Not a participant", [])
      else
        match (if isP1 then session.choice1 else session.choice2) with
        | some _ =>
          -- duplicate submission: return the current row so the caller
          -- can resynchronize
          let current := S.sessions.find? (fun s => decide (s.id = sid))
          (S, ⟨400, some "Already chose", current, false⟩, [])
        | none =>
          let c1 := if isP1 then some choice else session.choice1
          let c2 := if isP1 then session.choice2 else some choice
          match c1, c2 with
          | some a, some b =>
            -- both chosen: resolve the round
            let result := determineWinner a b
            let winnerId : Option Nat := resolveWinnerOf session result
            let newStreak : Nat := resolveStreakOf session result
            let rr : RoundResult := ⟨result, a, b⟩
            let (rows, updatedOpt) :=
              condUpdate S.sessions (fun s => decide (s.id = sid))
                (resolvePatch a b rr newStreak winnerId now)
            match updatedOpt with
            | none => (S, errResp 500 "Failed to submit choice", [])
            | some updated =>
              let S₁ := { S with sessions := rows }
              let S₂ :=
                if result ≠ .draw ∧ winnerId = some pid then
                  rankingFlow S₁ session.game_id pid isP2 newStreak now
                else S₁
              (S₂, okResp updated, [.sessionEnd sid updated])
          | _, _ =>
            -- only one choice so far: intermediate update
            let (rows, updatedOpt) :=
              condUpdate S.sessions (fun s => decide (s.id = sid))
                (chooseWritePatch c1 c2 now)
            match updatedOpt with
            | none => (S, errResp 500 "Failed to submit choice", [])
            | some updated =>
              ({ S with sessions := rows }, okResp updated,
               [.sessionUpdate sid updated])

/-! ## Matchmaking Service: POST /api/match -/

/-- The row patch of the conditional pairing claim: fill slot 2, flip the
status to playing, and reset the round fields. -/
def joinPatch (pid now : Nat) (s : GameSession) : GameSession :=
  { s with player2_id := some pid, status := .playing, choice1 := none,
           choice2 := none, round_result := none, updated_at := now }

/-- The filter of the "another player's waiting session" queries: same
game, status waiting, slot 1 is not the requester, slot 2 empty. -/
def otherWaitingPred (gid pid : Nat) (s : GameSession) : Bool :=
  decide (s.game_id = gid ∧ s.status = .waiting ∧ s.player1_id ≠ pid ∧
    s.player2_id = none)

/-- The row inserted by `createWaitingSession`: slot 1 is the requester and
`current_streak` is inherited from the requester's most recent won finished
session in this game (0 otherwise). -/
def freshWaitingSession (S : Store) (gid pid now : Nat) : GameSession :=
  let lastWin := latestBy (·.updated_at) (S.sessions.filter fun s =>
    decide (s.game_id = gid ∧ s.winner_id = some pid ∧ s.status = .finished))
  let incomingStreak := match lastWin with
    | some s => s.current_streak
    | none => 0
  { id := S.nextSessionId, game_id := gid, player1_id := pid,
    player2_id := none, winner_id := none, current_streak := incomingStreak,
    status := .waiting, choice1 := none, choice2 := none,
    round_result := none, created_at := now, updated_at := now }

/-- `createWaitingSession` from `src/app/api/match/route.ts`: insert a new
waiting session, then run the anti-race double-check: re-query for another
player's waiting session excluding the just-created one, conditionally
claim it, and on success cancel the just-created session and return the
claimed one. -/
def createWaitingSession (S : Store) (gid pid now : Nat) :
    Store × ApiResp × List Broadcast :=
  let newSession := freshWaitingSession S gid pid now
  let S₁ := { S with sessions := S.sessions ++ [newSession],
                     nextSessionId := S.nextSessionId + 1 }
  let otherWaiting := earliestBy (·.created_at) (S₁.sessions.filter fun s =>
    otherWaitingPred gid pid s && decide (s.id ≠ newSession.id))
  match otherWaiting with
  | some w =>
    let (rows, joinedOpt) :=
      condUpdate S₁.sessions
        (fun s => decide (s.id = w.id ∧ s.status = .waiting))
        (joinPatch pid now)
    match joinedOpt with
    | some joined =>
      let S₂ := { S₁ with sessions := rows }
      let (rows2, _) :=
        condUpdate S₂.sessions (fun s => decide (s.id = newSession.id))
          (fun s => { s with status := .cancelled, updated_at := now })
      ({ S₂ with sessions := rows2 }, okResp joined,
       [.sessionUpdate joined.id joined])
    | none =>
      -- optimistic lock failed: keep the just-created waiting session
      (S₁, okResp newSession, [])
  | none => (S₁, okResp newSession, [])

/-- `POST /api/match` (Matchmaking Service), from
`src/app/api/match/route.ts`: cancel the requester's own waiting/playing
sessions for this game, then claim another player's oldest waiting session
under an optimistic lock, else create a waiting session. -/
def requestMatch (S : Store) (pid : Nat) (slug : String) (now : Nat) :
    Store × ApiResp × List Broadcast :=
  match S.players.find? (fun p => decide (p.id = pid)) with
  | none => (S, errResp 400 "Player not found. Set nickname first.", [])
  | some _ =>
    match S.games.find? (fun g => decide (g.slug = slug ∧ g.is_active)) with
    | none => (S, errResp 404 "Game not found", [])
    | some game =>
      -- cancel the requester's own waiting/playing sessions for this game
      let cancelledRows := S.sessions.map fun s =>
        if decide (s.game_id = game.id ∧
            (s.status = .waiting ∨ s.status = .playing) ∧
            (s.player1_id = pid ∨ s.player2_id = some pid)) then
          { s with status := .cancelled, updated_at := now }
        else s
      let S₁ := { S with sessions := cancelledRows }
      let waiting := earliestBy (·.created_at)
        (S₁.sessions.filter (otherWaitingPred game.id pid))
      match waiting with
      | some w =>
        let (rows, updatedOpt) :=
          condUpdate S₁.sessions
            (fun s => decide (s.id = w.id ∧ s.status = .waiting))
            (joinPatch pid now)
        match updatedOpt with
        | some updated =>
          ({ S₁ with sessions := rows }, okResp updated,
           [.sessionUpdate updated.id updated])
        | none =>
          -- race: someone else claimed it → create a waiting session
          createWaitingSession S₁ game.id pid now
      | none => createWaitingSession S₁ game.id pid now

/-! ## POST /api/game/session/abandon -/

/-- `POST /api/game/session/abandon`, from
`src/app/api/game/session/abandon/route.ts`.  A terminal (finished or
cancelled) session is acknowledged without any write. -/
def abandonRoute (S : Store) (pid sid now : Nat) :
    Store × ApiResp × List Broadcast :=
  match S.players.find? (fun p => decide (p.id = pid)) with
  | none => (S, errResp 400 "Player not found", [])
  | some _ =>
    match S.sessions.find? (fun s => decide (s.id = sid)) with
    | none => (S, errResp 404 "Session not found", [])
    | some session =>
      if ¬(session.player1_id = pid ∨ session.player2_id = some pid) then
        (S, errResp 403 "Not a participant", [])
      else if session.status = .finished ∨ session.status = .cancelled then
        (S, cancelledResp, [])
      else
        let (rows, updatedOpt) :=
          condUpdate S.sessions (fun s => decide (s.id = sid))
            (fun s => { s with status := .cancelled, updated_at := now })
        match updatedOpt with
        | none => (S, errResp 500 "Failed to abandon session", [])
        | some updated =>
          ({ S with sessions := rows }, cancelledResp,
           [.sessionUpdate sid updated])

/-! ## Operation sequences over the store -/

/-- One server request: a matchmaking request, a choice submission, or an
abandon. -/
inductive Op
  | reqMatch (pid : Nat) (slug : String) (now : Nat)
  | choose (pid sid : Nat) (c : Choice) (now : Nat)
  | abandon (pid sid now : Nat)
deriving DecidableEq, Repr

/-- The store reached after one request. -/
def runOp (S : Store) : Op → Store
  | .reqMatch pid slug now => (requestMatch S pid slug now).1
  | .choose pid sid c now => (submitChoice S pid sid c now).1
  | .abandon pid sid now => (abandonRoute S pid sid now).1

/-- The store reached after a sequence of requests. -/
def runOps (S : Store) (ops : List Op) : Store := ops.foldl runOp S

/-! ## Realtime Relay: the PartyKit GameServer room -/

/-- One websocket connection of a room; `playerId` is the identity set by a
`{type: join, playerId}` frame (`connection.state`). -/
structure Conn where
  id : Nat
  playerId : Option Nat
deriving DecidableEq, Repr

/-- Per-room state of `GameServer`: the `ended` flag plus the connected
sockets. -/
structure Room where
  ended : Bool
  conns : List Conn
deriving DecidableEq, Repr

/-- Messages a room broadcasts to its connections. -/
inductive RMsg
  | update (s : GameSession)
  | endMsg (s : Option GameSession)
  | left (pid : Nat)
deriving DecidableEq, Repr

/-- Observable actions of a room handler: an HTTP response to the server
push, a broadcast (with excluded connection ids), or closing a socket. -/
inductive ROut
  | resp (code : Nat)
  | bcast (m : RMsg) (except : List Nat)
  | closeConn (cid : Nat)
deriving DecidableEq, Repr

/-- `GameServer.onRequest`: the server-to-room push.  `authOk` is the
outcome of `verifySecret`; `body` is the parsed JSON
`{type, session}` (`none` = parse failure). -/
def onRequest (r : Room) (method : String) (authOk : Bool)
    (body : Option (String × Option GameSession)) : Room × List ROut :=
  if method ≠ "POST" then (r, [.resp 405])
  else if ¬authOk then (r, [.resp 401])
  else
    match body with
    | none => (r, [.resp 400])
    | some (t, sess) =>
      if h : t = "session_update" ∧ sess.isSome then
        (r, [.bcast (.update (sess.get h.2)) [], .resp 200])
      else if t = "session_end" then
        ({ r with ended := true }, [.bcast (.endMsg sess) [], .resp 200])
      else (r, [.resp 400])

/-- `GameServer.onConnect`: a retired (ended) room refuses the connection
immediately; otherwise the socket joins the room with no identity yet. -/
def onConnect (r : Room) (cid : Nat) : Room × List ROut :=
  if r.ended then (r, [.closeConn cid])
  else ({ r with conns := r.conns ++ [⟨cid, none⟩] }, [])

/-- `GameServer.onMessage`: a parsed `{type: join, playerId}` frame binds
the player id to the sending connection; anything else is ignored. -/
def onMessage (r : Room) (cid : Nat) (payload : Option (String × Nat)) :
    Room × List ROut :=
  match payload with
  | some (t, pid) =>
    if t = "join" then
      ({ r with conns := r.conns.map fun c =>
          if c.id = cid then { c with playerId := some pid } else c }, [])
    else (r, [])
  | none => (r, [])

/-- `GameServer.onClose`: the socket leaves the room; if the room has not
ended and the connection had joined, broadcast `player_left` with that
player's id to all other connections. -/
def onClose (r : Room) (cid : Nat) : Room × List ROut :=
  let remaining := r.conns.filter fun c => decide (c.id ≠ cid)
  if r.ended then ({ r with conns := remaining }, [])
  else
    match (r.conns.find? (fun c => decide (c.id = cid))).bind (·.playerId) with
    | some pid => ({ r with conns := remaining }, [.bcast (.left pid) [cid]])
    | none => ({ r with conns := remaining }, [])

/-- Room events, for temporal reasoning over event sequences. -/
inductive REvt
  | request (method : String) (authOk : Bool)
      (body : Option (String × Option GameSession))
  | connect (cid : Nat)
  | message (cid : Nat) (payload : Option (String × Nat))
  | close (cid : Nat)
deriving DecidableEq, Repr

/-- Dispatch one room event. -/
def stepRoom (r : Room) : REvt → Room × List ROut
  | .request m a b => onRequest r m a b
  | .connect cid => onConnect r cid
  | .message cid p => onMessage r cid p
  | .close cid => onClose r cid

/-- The room state after a sequence of events. -/
def runRoom (r : Room) (evts : List REvt) : Room :=
  evts.foldl (fun r e => (stepRoom r e).1) r

/-! ## Client Reconciliation: the pure fragment of RPSGame -/

/-- Client UI states of `RPSGame.tsx`. -/
inductive GameState
  | nickname
  | matching
  | choosing
  | waiting
  | result
deriving DecidableEq, Repr

/-- The client-side state touched by the session-update handlers: the UI
state, the locally recorded choice (`myChoice`/`myChoiceRef`), the last
known session, the `opponentLeft` overlay, the error banner, the match
attempt counter, and whether the relay socket is open. -/
structure ClientState where
  state : GameState
  myChoice : Option Choice
  session : Option GameSession
  opponentLeft : Bool
  errMsg : String
  matchAttempt : Nat
  socketOpen : Bool
deriving DecidableEq, Repr

/-- `resetToMatching` from `RPSGame.tsx`: close the socket, clear session,
choice, overlay and error, return to `matching` and bump the attempt
counter. -/
def resetToMatching (cs : ClientState) : ClientState :=
  { cs with socketOpen := false, session := none, myChoice := none,
            opponentLeft := false, errMsg := "", state := .matching,
            matchAttempt := cs.matchAttempt + 1 }

/-- The `session_update` branch of the realtime `onMessage` handler in
`RPSGame.tsx` (the `payload.session` is `u`).  The `playing`-without-result
transition to `choosing` is guarded by the locally held choice. -/
def onSessionUpdateMsg (cs : ClientState) (u : GameSession) : ClientState :=
  let cs := { cs with session := some u }
  if u.status = .cancelled then
    resetToMatching { cs with socketOpen := false }
  else if u.status = .finished then
    let cs := { cs with socketOpen := false }
    if u.round_result.isSome then { cs with state := .result }
    else resetToMatching cs
  else if u.status = .playing ∧ u.round_result = none then
    if cs.myChoice = none then
      { cs with state := .choosing, opponentLeft := false }
    else cs
  else cs

/-- One successful poll of the waiting-session fallback loop in
`RPSGame.tsx` (`data.session` is `next`).  The transition to `choosing`
checks `myChoiceRef` first. -/
def pollTick (cs : ClientState) (next : GameSession) : ClientState :=
  if next.status = .playing then
    let cs := { cs with session := some next }
    if cs.myChoice = none then
      { cs with state := .choosing, myChoice := none, opponentLeft := false }
    else cs
  else if next.status = .cancelled ∨ next.status = .finished then
    resetToMatching cs
  else cs

/-! ## Shared lemmas -/

/-- Two rows of an id-Nodup list with the same id coincide. -/
theorem mem_id_unique {l : List GameSession}
    (h : l.Pairwise fun a b => a.id ≠ b.id) {x y : GameSession}
    (hx : x ∈ l) (hy : y ∈ l) (hid : x.id = y.id) : x = y := by
  by_contra hne
  exact h.forall (fun a b hab => (hab ∘ Eq.symm)) hx hy hne hid

/-- `find?` commutes with a map that does not change the predicate. -/
theorem find?_map_pred_comm {α : Type} (f : α → α) (p : α → Bool)
    (h : ∀ x, p (f x) = p x) (l : List α) :
    (l.map f).find? p = (l.find? p).map f := by
  induction l with
  | nil => rfl
  | cons a t ih =>
    by_cases ha : p a
    · simp [List.find?_cons, h a, ha]
    · simp only [List.map_cons, List.find?_cons]
      rw [h a]
      simp only [ha]
      exact ih

/-- `find?` on a mapped list whose images all fail the predicate. -/
theorem find?_map_none {α : Type} (f : α → α) (p : α → Bool)
    (h : ∀ x, p (f x) = false) (l : List α) : (l.map f).find? p = none := by
  rw [List.find?_eq_none]
  intro x hx
  rcases List.mem_map.mp hx with ⟨y, _, rfl⟩
  simp [h y]

/-- In an id-Nodup list, a `find?` on an id-guarded predicate that some row
satisfies returns exactly that row. -/
theorem find?_eq_of_mem_unique {l : List GameSession}
    (h : l.Pairwise fun a b => a.id ≠ b.id) {p : GameSession → Bool}
    {w : GameSession} (hw : w ∈ l) (hpw : p w = true)
    (hp : ∀ x, p x = true → x.id = w.id) : l.find? p = some w := by
  rcases hfind : l.find? p with _ | x
  · rw [List.find?_eq_none] at hfind
    exact absurd hpw (by simpa using hfind w hw)
  · have hx : x ∈ l := List.mem_of_find?_eq_some hfind
    have hpx : p x = true := List.find?_some hfind
    have : x = w := mem_id_unique h hx hw (hp x hpx)
    rw [this]

/-- A `find?` restricted by status refines to the plain id lookup on an
id-Nodup list. -/
theorem find?_id_of_find?_playing {l : List GameSession} {sid : Nat}
    {s : GameSession} (h : l.Pairwise fun a b => a.id ≠ b.id)
    (hs : l.find? (fun x => decide (x.id = sid ∧ x.status = .playing)) =
      some s) :
    l.find? (fun x => decide (x.id = sid)) = some s := by
  have hmem : s ∈ l := List.mem_of_find?_eq_some hs
  have hprop : s.id = sid ∧ s.status = .playing := by
    have := List.find?_some hs
    simpa using this
  apply find?_eq_of_mem_unique h hmem
  · simp [hprop.1]
  · intro x hx
    simp at hx
    rw [hx, hprop.1]

/-- C3: the round outcome function is total (it is a Lean function) and
matches the fixed dominance table on all 9 choice pairs: identical choices
draw, rock beats scissors, scissors beats paper, paper beats rock. -/
theorem determineWinner_table :
    determineWinner .rock .rock = .draw ∧
    determineWinner .paper .paper = .draw ∧
    determineWinner .scissors .scissors = .draw ∧
    determineWinner .rock .scissors = .player1 ∧
    determineWinner .scissors .paper = .player1 ∧
    determineWinner .paper .rock = .player1 ∧
    determineWinner .scissors .rock = .player2 ∧
    determineWinner .paper .scissors = .player2 ∧
    determineWinner .rock .paper = .player2 := by
  decide

/-! ## C9: the client never resets a locally recorded choice -/

/-- C9: an authoritative update with status `playing` and no `round_result`
never resets a player who already holds a local choice back to the
un-chosen `choosing` state: both the realtime `session_update` handler and
the waiting-state poll check the local choice first and transition to
`choosing` only when no local choice is present. -/
theorem client_choice_guard (cs : ClientState) (u : GameSession) (c : Choice)
    (hst : u.status = .playing) (hrr : u.round_result = none) :
    (cs.myChoice = some c →
      (onSessionUpdateMsg cs u).state = cs.state ∧
      (onSessionUpdateMsg cs u).myChoice = some c ∧
      (pollTick cs u).state = cs.state ∧
      (pollTick cs u).myChoice = some c) ∧
    (cs.myChoice = none →
      (onSessionUpdateMsg cs u).state = GameState.choosing ∧
      (pollTick cs u).state = GameState.choosing) := by
  unfold onSessionUpdateMsg pollTick
  simp only [hst, hrr]
  constructor
  · intro hc
    simp [hc]
  · intro hc
    simp [hc]

/-- Witness for `client_choice_guard` at a concrete state and update. -/
theorem client_choice_guard_witness :
    (onSessionUpdateMsg
      ⟨GameState.waiting, some Choice.rock, none, false, "", 0, true⟩
      ⟨100, 10, 1, some 2, none, 0, .playing, some .rock, none, none, 0, 0⟩
      ).state = GameState.waiting ∧
    (pollTick
      ⟨GameState.waiting, some Choice.rock, none, false, "", 0, true⟩
      ⟨100, 10, 1, some 2, none, 0, .playing, some .rock, none, none, 0, 0⟩
      ).myChoice = some Choice.rock := by
  have h := client_choice_guard
    ⟨GameState.waiting, some Choice.rock, none, false, "", 0, true⟩
    ⟨100, 10, 1, some 2, none, 0, .playing, some .rock, none, none, 0, 0⟩
    Choice.rock rfl rfl
  exact ⟨(h.1 rfl).1, (h.1 rfl).2.2.2⟩

/-! ## C10: abandoning a terminal session is a no-op -/

/-- C10: when a participant abandons a session whose status is already
`finished` or `cancelled`, the handler returns `{cancelled: true}` without
writing to the store and without broadcasting, so a finished session's
status, winner and round_result are never changed by a late abandon. -/
theorem abandon_terminal_noop (S : Store) (pid sid now : Nat)
    (P : PlayerRow) (s : GameSession)
    (hP : S.players.find? (fun p => decide (p.id = pid)) = some P)
    (hs : S.sessions.find? (fun x => decide (x.id = sid)) = some s)
    (hpart : s.player1_id = pid ∨ s.player2_id = some pid)
    (hterm : s.status = .finished ∨ s.status = .cancelled) :
    abandonRoute S pid sid now = (S, cancelledResp, []) := by
  unfold abandonRoute
  rw [hP, hs]
  simp [hpart, hterm]

/-- Witness for `abandon_terminal_noop` on a concrete store. -/
theorem abandon_terminal_noop_witness :
    abandonRoute
      ⟨[⟨1, "alice", none⟩], [⟨10, "rps", true, none⟩],
       [⟨100, 10, 1, some 2, some 1, 1, .finished, some .rock, some .scissors,
         some ⟨.player1, .rock, .scissors⟩, 0, 3⟩], [], 101, 1⟩
      1 100 7 =
    (⟨[⟨1, "alice", none⟩], [⟨10, "rps", true, none⟩],
      [⟨100, 10, 1, some 2, some 1, 1, .finished, some .rock, some .scissors,
        some ⟨.player1, .rock, .scissors⟩, 0, 3⟩], [], 101, 1⟩,
     cancelledResp, []) := by
  exact abandon_terminal_noop _ 1 100 7 ⟨1, "alice", none⟩
    ⟨100, 10, 1, some 2, some 1, 1, .finished, some .rock, some .scissors,
      some ⟨.player1, .rock, .scissors⟩, 0, 3⟩
    (by decide) (by decide) (by decide) (by decide)

/-! ## C4: duplicate submission returns a conflict with the current row -/

/-- C4: when the caller's slot already holds a recorded choice,
`submitChoice` returns HTTP 400 with error `Already chose` carrying the
current session row, fires no broadcast, and leaves the store (hence
`round_result` and every other session field) unchanged. -/
theorem duplicate_choice_conflict (S : Store) (pid sid : Nat) (c : Choice)
    (now : Nat) (P : PlayerRow) (s : GameSession)
    (hids : S.sessions.Pairwise fun a b => a.id ≠ b.id)
    (hP : S.players.find? (fun p => decide (p.id = pid)) = some P)
    (hs : S.sessions.find?
      (fun x => decide (x.id = sid ∧ x.status = .playing)) = some s)
    (hpart : s.player1_id = pid ∨ s.player2_id = some pid)
    (hdup : (if s.player1_id = pid then s.choice1 else s.choice2).isSome) :
    submitChoice S pid sid c now =
      (S, ⟨400, some "Already chose", some s, false⟩, []) := by
  unfold submitChoice
  rw [hP, hs]
  have hrefetch := find?_id_of_find?_playing hids hs
  by_cases h1 : s.player1_id = pid
  · rcases hcase : s.choice1 with _ | ch
    · rw [if_pos h1, hcase] at hdup
      simp at hdup
    · simp [h1, hcase, hrefetch]
  · have h2 : s.player2_id = some pid := hpart.resolve_left h1
    rcases hcase : s.choice2 with _ | ch
    · rw [if_neg h1, hcase] at hdup
      simp at hdup
    · simp [h1, h2, hcase, hrefetch]

/-- Witness for `duplicate_choice_conflict` on a concrete store: player 1
already chose rock, submits again, and gets the conflict carrying the
unchanged row. -/
theorem duplicate_choice_conflict_witness :
    submitChoice
      ⟨[⟨1, "alice", none⟩, ⟨2, "bob", none⟩], [⟨10, "rps", true, none⟩],
       [⟨100, 10, 1, some 2, none, 0, .playing, some .rock, none, none, 0, 0⟩],
       [], 101, 1⟩
      1 100 Choice.paper 5 =
    (⟨[⟨1, "alice", none⟩, ⟨2, "bob", none⟩], [⟨10, "rps", true, none⟩],
      [⟨100, 10, 1, some 2, none, 0, .playing, some .rock, none, none, 0, 0⟩],
      [], 101, 1⟩,
     ⟨400, some "Already chose",
      some ⟨100, 10, 1, some 2, none, 0, .playing, some .rock, none, none, 0, 0⟩,
      false⟩, []) := by
  exact duplicate_choice_conflict _ 1 100 Choice.paper 5 ⟨1, "alice", none⟩
    ⟨100, 10, 1, some 2, none, 0, .playing, some .rock, none, none, 0, 0⟩
    (by decide) (by decide) (by decide) (by decide) (by decide)

/-! ## C8: relay room retirement -/

/-- Once a room has ended, one further event never clears the flag. -/
theorem stepRoom_ended_sticky (r : Room) (e : REvt) (h : r.ended = true) :
    (stepRoom r e).1.ended = true := by
  cases e with
  | request m a b =>
    show (onRequest r m a b).1.ended = true
    unfold onRequest
    split
    · exact h
    · split
      · exact h
      · rcases b with _ | ⟨t, sess⟩
        · exact h
        · dsimp only
          split
          · exact h
          · split
            · rfl
            · exact h
  | connect cid =>
    show (onConnect r cid).1.ended = true
    unfold onConnect
    rw [if_pos h]
    exact h
  | message cid p =>
    show (onMessage r cid p).1.ended = true
    unfold onMessage
    rcases p with _ | ⟨t, pid⟩
    · exact h
    · dsimp only
      split <;> exact h
  | close cid =>
    show (onClose r cid).1.ended = true
    unfold onClose
    split
    · exact h
    · dsimp only
      exact h

/-- `ended` is preserved by any event sequence. -/
theorem runRoom_ended_sticky (evts : List REvt) (r : Room)
    (h : r.ended = true) : (runRoom r evts).ended = true := by
  induction evts generalizing r with
  | nil => exact h
  | cons e t ih =>
    exact ih (stepRoom r e).1 (stepRoom_ended_sticky r e h)

/-- A well-formed `session_end` push flips the `ended` flag. -/
theorem onRequest_session_end (r : Room) (sess : Option GameSession) :
    (onRequest r "POST" true (some ("session_end", sess))).1.ended = true := by
  unfold onRequest
  simp

/-- A retired room never broadcasts on close. -/
theorem onClose_ended (r : Room) (cid : Nat) (h : r.ended = true) :
    (onClose r cid).2 = [] := by
  unfold onClose
  rw [if_pos h]

/-- A retired room refuses every inbound connection. -/
theorem onConnect_ended (r : Room) (cid : Nat) (h : r.ended = true) :
    onConnect r cid = (r, [.closeConn cid]) := by
  unfold onConnect
  rw [if_pos h]

/-- C8: before the room has received an end signal, a closing connection
that had joined as `pid` triggers a `player_left` broadcast naming `pid` to
all other connections; after a `session_end` push the room is retired: the
`player_left` broadcast on close is suppressed and every further inbound
connection attempt is refused, whatever events happen in between. -/
theorem relay_room_retirement (r : Room) (cid pid : Nat)
    (evts : List REvt) (sess : Option GameSession) :
    (r.ended = false →
      r.conns.find? (fun c => decide (c.id = cid)) = some ⟨cid, some pid⟩ →
      (onClose r cid).2 = [ROut.bcast (RMsg.left pid) [cid]]) ∧
    ((runRoom r (REvt.request "POST" true (some ("session_end", sess)) ::
        evts)).ended = true ∧
      (onClose (runRoom r (REvt.request "POST" true
        (some ("session_end", sess)) :: evts)) cid).2 = [] ∧
      onConnect (runRoom r (REvt.request "POST" true
        (some ("session_end", sess)) :: evts)) cid =
        (runRoom r (REvt.request "POST" true
          (some ("session_end", sess)) :: evts), [ROut.closeConn cid])) := by
  have hended : (runRoom r (REvt.request "POST" true
      (some ("session_end", sess)) :: evts)).ended = true := by
    show (runRoom (stepRoom r (.request "POST" true
      (some ("session_end", sess)))).1 evts).ended = true
    exact runRoom_ended_sticky evts _ (onRequest_session_end r sess)
  refine ⟨?_, hended, onClose_ended _ cid hended, onConnect_ended _ cid hended⟩
  intro hno hfind
  unfold onClose
  rw [if_neg (by simp [hno])]
  rw [hfind]
  rfl

/-- Witness for `relay_room_retirement` on a concrete room: a live room
broadcasts `player_left` for a joined connection, and after a
`session_end` push the room stays ended and refuses a new connection. -/
theorem relay_room_retirement_witness :
    (onClose ⟨false, [⟨1, some 7⟩, ⟨2, some 8⟩]⟩ 1).2 =
      [ROut.bcast (RMsg.left 7) [1]] ∧
    (runRoom ⟨false, [⟨1, some 7⟩, ⟨2, some 8⟩]⟩
      [REvt.request "POST" true (some ("session_end", none)),
       REvt.close 1]).ended = true := by
  have h := relay_room_retirement ⟨false, [⟨1, some 7⟩, ⟨2, some 8⟩]⟩ 1 7
    [REvt.close 1] none
  exact ⟨h.1 rfl (by decide), h.2.1⟩

/-! ## C5: resolution outcomes, streak and winner updates -/

/-- C5: when the caller's submission completes the pair of choices,
`submitChoice` finishes the session and writes the round result computed
from `(player1 choice, player2 choice)`; on a draw the streak is reset to 0
and `winner_id` stays unset; on a player1 win `winner_id` is player1 and
the carried streak is incremented by exactly 1; on a player2 win
`winner_id` is player2 and the carried streak is set to 0.  The first
conjunct covers a player-1 caller (their `b` joins the recorded player-2
choice `a`); the second covers a player-2 caller. -/
theorem resolve_outcomes (S : Store) (pid sid : Nat) (a b : Choice)
    (now : Nat) (P : PlayerRow) (s : GameSession)
    (hids : S.sessions.Pairwise fun a b => a.id ≠ b.id)
    (hP : S.players.find? (fun p => decide (p.id = pid)) = some P)
    (hs : S.sessions.find?
      (fun x => decide (x.id = sid ∧ x.status = .playing)) = some s)
    (hwid : s.winner_id = none) :
    (s.player1_id = pid → s.choice1 = none → s.choice2 = some a →
      ∃ u, (submitChoice S pid sid b now).2 =
          (okResp u, [Broadcast.sessionEnd sid u]) ∧
        u.status = .finished ∧
        u.round_result = some ⟨determineWinner b a, b, a⟩ ∧
        (determineWinner b a = .draw →
          u.current_streak = 0 ∧ u.winner_id = none) ∧
        (determineWinner b a = .player1 →
          u.winner_id = some s.player1_id ∧
          u.current_streak = s.current_streak + 1) ∧
        (determineWinner b a = .player2 →
          u.winner_id = s.player2_id ∧ u.current_streak = 0)) ∧
    (s.player1_id ≠ pid → s.player2_id = some pid → s.choice1 = some a →
      s.choice2 = none →
      ∃ u, (submitChoice S pid sid b now).2 =
          (okResp u, [Broadcast.sessionEnd sid u]) ∧
        u.status = .finished ∧
        u.round_result = some ⟨determineWinner a b, a, b⟩ ∧
        (determineWinner a b = .draw →
          u.current_streak = 0 ∧ u.winner_id = none) ∧
        (determineWinner a b = .player1 →
          u.winner_id = some s.player1_id ∧
          u.current_streak = s.current_streak + 1) ∧
        (determineWinner a b = .player2 →
          u.winner_id = some pid ∧ u.current_streak = 0)) := by
  have hrefetch := find?_id_of_find?_playing hids hs
  constructor
  · intro h1 hc1 hc2
    unfold submitChoice
    rw [hP, hs]
    simp only [h1, hc1, hc2, condUpdate, hrefetch]
    simp only [if_true, ite_true, Option.map_some', not_true, false_and,
      if_false]
    refine ⟨_, rfl, ?_⟩
    unfold resolvePatch resolveWinnerOf resolveStreakOf
    rcases hdw : determineWinner b a with _ | _ | _
    · simp [hdw, hwid, h1]
    · rcases hp2 : s.player2_id with _ | w <;> simp [hdw, hwid, h1, hp2]
    · simp [hdw, hwid, h1]
  · intro h1 h2 hc1 hc2
    unfold submitChoice
    rw [hP, hs]
    simp only [h1, h2, hc1, hc2, condUpdate, hrefetch]
    simp only [if_true, ite_true, Option.map_some', not_true, false_and,
      if_false]
    rw [if_neg (by simp)]
    refine ⟨_, rfl, ?_⟩
    unfold resolvePatch resolveWinnerOf resolveStreakOf
    rcases hdw : determineWinner a b with _ | _ | _ <;>
      simp [hdw, hwid, h2]

/-- Witness for `resolve_outcomes`: player 1 already chose rock with a
carried streak of 3; player 2 submits scissors; the session finishes with
`winner_id = player1` and streak 4. -/
theorem resolve_outcomes_witness :
    ∃ u, (submitChoice
        ⟨[⟨1, "alice", none⟩, ⟨2, "bob", none⟩], [⟨10, "rps", true, none⟩],
         [⟨100, 10, 1, some 2, none, 3, .playing, some .rock, none, none, 0,
           0⟩], [], 101, 1⟩
        2 100 Choice.scissors 5).2 =
      (okResp u, [Broadcast.sessionEnd 100 u]) ∧
    u.status = .finished ∧ u.winner_id = some 1 ∧ u.current_streak = 4 := by
  have h := (resolve_outcomes
    ⟨[⟨1, "alice", none⟩, ⟨2, "bob", none⟩], [⟨10, "rps", true, none⟩],
     [⟨100, 10, 1, some 2, none, 3, .playing, some .rock, none, none, 0, 0⟩],
     [], 101, 1⟩
    2 100 Choice.rock Choice.scissors 5 ⟨2, "bob", none⟩
    ⟨100, 10, 1, some 2, none, 3, .playing, some .rock, none, none, 0, 0⟩
    (by decide) (by decide) (by decide) (by decide)).2
    (by decide) (by decide) (by decide) (by decide)
  obtain ⟨u, hresp, hstat, _, _, hp1, _⟩ := h
  exact ⟨u, hresp, hstat, (hp1 (by decide)).1, (hp1 (by decide)).2⟩

/-! ## C2: the anti-race double-check in createWaitingSession -/

/-- The row returned by `earliestBy` is in the list. -/
theorem earliestBy_mem {f : GameSession → Nat} {l : List GameSession}
    {w : GameSession} (h : earliestBy f l = some w) : w ∈ l := by
  induction l with
  | nil => simp [earliestBy] at h
  | cons x xs ih =>
    rcases hx : earliestBy f xs with _ | y <;> rw [earliestBy, hx] at h <;>
      dsimp only at h
    · injection h with h'
      exact h' ▸ List.mem_cons_self x xs
    · by_cases hlt : f y < f x
      · rw [if_pos hlt] at h
        injection h with h'
        exact List.mem_cons_of_mem x (ih (h' ▸ hx))
      · rw [if_neg hlt] at h
        injection h with h'
        exact h' ▸ List.mem_cons_self x xs

/-- C2: immediately after inserting a new waiting session,
`createWaitingSession` re-queries for another player's waiting session
excluding the just-created one; when the re-query finds `w`, the
conditional claim succeeds: the response returns `w` claimed (slot 2 =
requester, status playing), notifies the relay, and the just-created
session is cancelled in the resulting store. -/
theorem antirace_doublecheck (S : Store) (gid pid now : Nat)
    (w : GameSession)
    (hids : S.sessions.Pairwise fun a b => a.id ≠ b.id)
    (hfresh : ∀ s ∈ S.sessions, s.id ≠ S.nextSessionId)
    (hfind : earliestBy (·.created_at)
      ((S.sessions ++ [freshWaitingSession S gid pid now]).filter fun s =>
        otherWaitingPred gid pid s &&
          decide (s.id ≠ (freshWaitingSession S gid pid now).id)) = some w) :
    (createWaitingSession S gid pid now).2.1 =
      okResp (joinPatch pid now w) ∧
    (createWaitingSession S gid pid now).2.2 =
      [Broadcast.sessionUpdate w.id (joinPatch pid now w)] ∧
    (joinPatch pid now w).player2_id = some pid ∧
    (joinPatch pid now w).status = .playing ∧
    w.id ≠ (freshWaitingSession S gid pid now).id ∧
    (∃ row ∈ (createWaitingSession S gid pid now).1.sessions,
      row.id = (freshWaitingSession S gid pid now).id ∧
      row.status = .cancelled) := by
  have hmem := earliestBy_mem hfind
  rw [List.mem_filter, Bool.and_eq_true] at hmem
  obtain ⟨hmemM, how, hne⟩ := hmem
  unfold otherWaitingPred at how
  rw [decide_eq_true_eq] at how hne
  obtain ⟨hgid, hwstat, hwp1, hwp2⟩ := how
  have hpwM : (S.sessions ++ [freshWaitingSession S gid pid now]).Pairwise
      (fun a b => a.id ≠ b.id) := by
    rw [List.pairwise_append]
    refine ⟨hids, List.pairwise_singleton _ _, ?_⟩
    intro a ha b hb
    rw [List.mem_singleton] at hb
    subst hb
    exact hfresh a ha
  have hfindq : (S.sessions ++ [freshWaitingSession S gid pid now]).find?
      (fun z => decide (z.id = w.id ∧ z.status = SessionStatus.waiting)) =
      some w := by
    apply find?_eq_of_mem_unique hpwM hmemM
    · simp [hwstat]
    · intro x hx
      rw [decide_eq_true_eq] at hx
      exact hx.1
  unfold createWaitingSession condUpdate
  simp only [hfind, hfindq, Option.map_some']
  refine ⟨trivial, rfl, rfl, rfl, hne, ?_⟩
  have hinsmem : freshWaitingSession S gid pid now ∈
      S.sessions ++ [freshWaitingSession S gid pid now] :=
    List.mem_append_right _ (List.mem_singleton_self _)
  refine ⟨_, List.mem_map_of_mem _ (List.mem_map_of_mem _ hinsmem), ?_, ?_⟩ <;>
    simp [Ne.symm hne]

/-- Witness for `antirace_doublecheck`: player 2 already has a waiting
session (id 50); player 1's `createWaitingSession` claims it and cancels
the freshly inserted session (id 101). -/
theorem antirace_doublecheck_witness :
    (createWaitingSession
      ⟨[⟨1, "alice", none⟩, ⟨2, "bob", none⟩], [⟨10, "rps", true, none⟩],
       [⟨50, 10, 2, none, none, 0, .waiting, none, none, none, 0, 0⟩],
       [], 101, 1⟩ 10 1 5).2.1 =
      okResp (joinPatch 1 5
        ⟨50, 10, 2, none, none, 0, .waiting, none, none, none, 0, 0⟩) ∧
    (∃ row ∈ (createWaitingSession
      ⟨[⟨1, "alice", none⟩, ⟨2, "bob", none⟩], [⟨10, "rps", true, none⟩],
       [⟨50, 10, 2, none, none, 0, .waiting, none, none, none, 0, 0⟩],
       [], 101, 1⟩ 10 1 5).1.sessions,
      row.id = 101 ∧ row.status = .cancelled) := by
  have h := antirace_doublecheck
    ⟨[⟨1, "alice", none⟩, ⟨2, "bob", none⟩], [⟨10, "rps", true, none⟩],
     [⟨50, 10, 2, none, none, 0, .waiting, none, none, none, 0, 0⟩],
     [], 101, 1⟩ 10 1 5
    ⟨50, 10, 2, none, none, 0, .waiting, none, none, none, 0, 0⟩
    (by decide) (by decide) (by decide)
  exact ⟨h.1, h.2.2.2.2.2⟩

/-! ## C1: idempotence of submitChoice -/

theorem resolvePatch_status (a b : Choice) (rr : RoundResult) (ns : Nat)
    (wid : Option Nat) (now : Nat) (x : GameSession) :
    (resolvePatch a b rr ns wid now x).status = .finished := by
  unfold resolvePatch
  cases wid <;> rfl

theorem resolvePatch_id (a b : Choice) (rr : RoundResult) (ns : Nat)
    (wid : Option Nat) (now : Nat) (x : GameSession) :
    (resolvePatch a b rr ns wid now x).id = x.id := by
  unfold resolvePatch
  cases wid <;> rfl

/-- The ranking/champion block touches neither players nor sessions. -/
theorem rankingFlow_fields (T : Store) (gid pid : Nat) (isP2 : Bool)
    (ns now : Nat) :
    (rankingFlow T gid pid isP2 ns now).players = T.players ∧
    (rankingFlow T gid pid isP2 ns now).sessions = T.sessions := by
  unfold rankingFlow
  split <;> exact ⟨rfl, rfl⟩

/-- Summary of the error paths: when the caller is unknown, the session is
not in `playing`, the caller is not a participant, or the caller's slot is
already filled, `submitChoice` leaves the store untouched and fires no
broadcast. -/
theorem submitChoice_dup_summary (T : Store) (pid sid : Nat) (c : Choice)
    (n : Nat) (P : PlayerRow) (t : GameSession)
    (hP : T.players.find? (fun p => decide (p.id = pid)) = some P)
    (ht : T.sessions.find?
      (fun x => decide (x.id = sid ∧ x.status = .playing)) = some t)
    (hpart : t.player1_id = pid ∨ t.player2_id = some pid)
    (hdup : (if t.player1_id = pid then t.choice1 else t.choice2).isSome) :
    (submitChoice T pid sid c n).1 = T ∧
    (submitChoice T pid sid c n).2.2 = [] ∧
    (submitChoice T pid sid c n).2.1.status = 400 ∧
    (submitChoice T pid sid c n).2.1.error = some "Already chose" := by
  unfold submitChoice
  rw [hP, ht]
  by_cases h1 : t.player1_id = pid
  · rcases hc : t.choice1 with _ | ch
    · rw [if_pos h1, hc] at hdup
      simp at hdup
    · simp [h1, hc]
  · have h2 : t.player2_id = some pid := hpart.resolve_left h1
    rcases hc : t.choice2 with _ | ch
    · rw [if_neg h1, hc] at hdup
      simp at hdup
    · simp [h1, h2, hc]

/-- Summary of the not-playing path. -/
theorem submitChoice_notPlaying (T : Store) (pid sid : Nat) (c : Choice)
    (n : Nat) (P : PlayerRow)
    (hP : T.players.find? (fun p => decide (p.id = pid)) = some P)
    (ht : T.sessions.find?
      (fun x => decide (x.id = sid ∧ x.status = .playing)) = none) :
    submitChoice T pid sid c n =
      (T, errResp 404 "Game session not found or not playing", []) := by
  unfold submitChoice
  rw [hP, ht]

/-- C1 (amended): `submitChoice` is idempotent.  A second identical
submission never changes the store again and never broadcasts (in
particular it never resolves a second time); already-finished rows survive
any call untouched; a retried submission after a resolution (a
`session_end` broadcast) is rejected by the playing-status session lookup
with 404, not re-resolved; a retried submission while the round is still
unresolved (a `session_update` broadcast) lands on the duplicate path
(400, `Already chose`). -/
theorem submit_idempotent (S : Store) (pid sid : Nat) (c : Choice)
    (now now' : Nat)
    (hids : S.sessions.Pairwise fun a b => a.id ≠ b.id) :
    ((submitChoice (submitChoice S pid sid c now).1 pid sid c now').1 =
        (submitChoice S pid sid c now).1 ∧
      (submitChoice (submitChoice S pid sid c now).1 pid sid c now').2.2 =
        []) ∧
    (∀ s ∈ S.sessions, s.status = .finished →
      s ∈ (submitChoice S pid sid c now).1.sessions) ∧
    (∀ x u,
      (submitChoice S pid sid c now).2.2 = [Broadcast.sessionEnd x u] →
      (submitChoice (submitChoice S pid sid c now).1 pid sid c
        now').2.1.status = 404 ∧
      (submitChoice (submitChoice S pid sid c now).1 pid sid c
        now').2.1.error = some "Game session not found or not playing") ∧
    (∀ x u,
      (submitChoice S pid sid c now).2.2 = [Broadcast.sessionUpdate x u] →
      (submitChoice (submitChoice S pid sid c now).1 pid sid c
        now').2.1.status = 400 ∧
      (submitChoice (submitChoice S pid sid c now).1 pid sid c
        now').2.1.error = some "Already chose") := by
  rcases hp : S.players.find? (fun p => decide (p.id = pid)) with _ | P
  · -- player not found: both calls are the identity on the store
    have hfst : ∀ n, submitChoice S pid sid c n =
        (S, errResp 400 "Player not found", []) := by
      intro n
      unfold submitChoice
      rw [hp]
    rw [hfst now, hfst now']
    exact ⟨⟨rfl, rfl⟩, fun s hs _ => hs,
      fun x u h => by simp at h, fun x u h => by simp at h⟩
  · rcases hs₀ : S.sessions.find?
        (fun x => decide (x.id = sid ∧ x.status = .playing)) with _ | s₀
    · -- no playing session with this id
      have hfst : ∀ n, submitChoice S pid sid c n =
          (S, errResp 404 "Game session not found or not playing", []) :=
        fun n => submitChoice_notPlaying S pid sid c n P hp hs₀
      rw [hfst now, hfst now']
      exact ⟨⟨rfl, rfl⟩, fun s hs _ => hs,
        fun x u h => by simp at h, fun x u h => by simp at h⟩
    · have hrefetch := find?_id_of_find?_playing hids hs₀
      have hmem₀ : s₀ ∈ S.sessions := List.mem_of_find?_eq_some hs₀
      have hplay₀ : s₀.id = sid ∧ s₀.status = .playing := by
        have := List.find?_some hs₀
        simpa using this
      by_cases hnp : ¬s₀.player1_id = pid ∧ ¬s₀.player2_id = some pid
      · -- not a participant
        have hfst : ∀ n, submitChoice S pid sid c n =
            (S, errResp 403 "Not a participant", []) := by
          intro n
          unfold submitChoice
          rw [hp, hs₀]
          dsimp only
          rw [if_pos hnp]
        rw [hfst now, hfst now']
        exact ⟨⟨rfl, rfl⟩, fun s hs _ => hs,
          fun x u h => by simp at h, fun x u h => by simp at h⟩
      · have hpart : s₀.player1_id = pid ∨ s₀.player2_id = some pid := by
          rcases not_and_or.mp hnp with h | h
          · exact Or.inl (not_not.mp h)
          · exact Or.inr (not_not.mp h)
        rcases hslot : (if s₀.player1_id = pid then s₀.choice1
            else s₀.choice2) with _ | ch
        · -- the caller's slot is empty: a write happens
          by_cases h1 : s₀.player1_id = pid
          · have hc1 : s₀.choice1 = none := by rwa [if_pos h1] at hslot
            rcases ho : s₀.choice2 with _ | a2
            · -- intermediate write by a slot-1 caller
              have hEq : submitChoice S pid sid c now =
                  ({ S with sessions := S.sessions.map fun r =>
                      if decide (r.id = sid) = true then
                        chooseWritePatch (some c) none now r
                      else r },
                   okResp (chooseWritePatch (some c) none now s₀),
                   [Broadcast.sessionUpdate sid
                     (chooseWritePatch (some c) none now s₀)]) := by
                unfold submitChoice condUpdate
                rw [hp, hs₀]
                dsimp only
                rw [if_neg hnp, hslot]
                dsimp only
                rw [if_pos h1, if_pos h1, ho]
                dsimp only
                rw [hrefetch]
                rfl
              have hs' : (submitChoice S pid sid c now).1.sessions.find?
                  (fun x => decide (x.id = sid ∧ x.status = .playing)) =
                  some (chooseWritePatch (some c) none now s₀) := by
                rw [hEq]
                dsimp only
                rw [find?_map_pred_comm _ _ ?hcomm, hs₀]
                case hcomm =>
                  intro x
                  by_cases hx : decide (x.id = sid) = true <;>
                    simp [hx, chooseWritePatch]
                simp only [Option.map_some']
                rw [if_pos (by simp [hplay₀.1])]
              have dup4 := submitChoice_dup_summary
                (submitChoice S pid sid c now).1 pid sid c now' P
                (chooseWritePatch (some c) none now s₀)
                (by rw [hEq]; exact hp) hs'
                (by exact hpart)
                (by simp [chooseWritePatch, h1])
              refine ⟨⟨dup4.1, dup4.2.1⟩, ?_, ?_,
                fun x u _ => ⟨dup4.2.2.1, dup4.2.2.2⟩⟩
              · intro s hsm hsf
                rw [hEq]
                refine List.mem_map.mpr ⟨s, hsm, if_neg ?_⟩
                simp only [decide_eq_true_eq]
                intro hid
                have hss : s = s₀ :=
                  mem_id_unique hids hsm hmem₀ (by rw [hid, hplay₀.1])
                rw [hss, hplay₀.2] at hsf
                exact absurd hsf (by decide)
              · intro x u h
                rw [hEq] at h
                simp at h
            · -- resolve by a slot-1 caller
              set RES : GameSession → GameSession :=
                resolvePatch c a2 ⟨determineWinner c a2, c, a2⟩
                  (resolveStreakOf s₀ (determineWinner c a2))
                  (resolveWinnerOf s₀ (determineWinner c a2)) now with hRES
              have hEq : submitChoice S pid sid c now =
                  (if determineWinner c a2 ≠ RoundOutcome.draw ∧
                      resolveWinnerOf s₀ (determineWinner c a2) = some pid
                    then
                      rankingFlow
                        { S with sessions := (condUpdate S.sessions (fun z => decide (z.id = sid)) RES).1 }
                        s₀.game_id pid (decide (s₀.player2_id = some pid))
                        (resolveStreakOf s₀ (determineWinner c a2)) now
                    else
                      { S with sessions := (condUpdate S.sessions (fun z => decide (z.id = sid)) RES).1 },
                   okResp (RES s₀),
                   [Broadcast.sessionEnd sid (RES s₀)]) := by
                unfold submitChoice condUpdate
                rw [hp, hs₀]
                dsimp only
                rw [if_neg hnp, hslot]
                dsimp only
                rw [if_pos h1, if_pos h1, ho]
                dsimp only
                rw [hrefetch]
                rfl
              have hA : (submitChoice S pid sid c now).1.players =
                  S.players := by
                rw [hEq]
                split
                · exact (rankingFlow_fields _ _ _ _ _ _).1
                · rfl
              have hB : (submitChoice S pid sid c now).1.sessions =
                  (condUpdate S.sessions (fun z => decide (z.id = sid))
                    RES).1 := by
                rw [hEq]
                split
                · exact (rankingFlow_fields _ _ _ _ _ _).2
                · rfl
              have h404 := submitChoice_notPlaying
                (submitChoice S pid sid c now).1 pid sid c now' P
                (by rw [hA]; exact hp)
                (by
                  rw [hB]
                  simp only [condUpdate]
                  apply find?_map_none
                  intro x
                  by_cases hx : decide (x.id = sid) = true
                  · rw [if_pos hx]
                    simp [hRES, resolvePatch_status]
                  · rw [if_neg hx]
                    simp only [decide_eq_true_eq] at hx
                    simp [hx])
              refine ⟨⟨?_, ?_⟩, ?_, fun x u _ => ?_, ?_⟩
              · rw [h404]
              · rw [h404]
              · intro s hsm hsf
                rw [hB]
                simp only [condUpdate]
                refine List.mem_map.mpr ⟨s, hsm, if_neg ?_⟩
                simp only [decide_eq_true_eq]
                intro hid
                have hss : s = s₀ :=
                  mem_id_unique hids hsm hmem₀ (by rw [hid, hplay₀.1])
                rw [hss, hplay₀.2] at hsf
                exact absurd hsf (by decide)
              · rw [h404]
                exact ⟨rfl, rfl⟩
              · intro x u h
                rw [hEq] at h
                simp at h
          · have h2 : s₀.player2_id = some pid := hpart.resolve_left h1
            have hc2 : s₀.choice2 = none := by rwa [if_neg h1] at hslot
            rcases ho : s₀.choice1 with _ | a1
            · -- intermediate write by a slot-2 caller
              have hEq : submitChoice S pid sid c now =
                  ({ S with sessions := S.sessions.map fun r =>
                      if decide (r.id = sid) = true then
                        chooseWritePatch none (some c) now r
                      else r },
                   okResp (chooseWritePatch none (some c) now s₀),
                   [Broadcast.sessionUpdate sid
                     (chooseWritePatch none (some c) now s₀)]) := by
                unfold submitChoice condUpdate
                rw [hp, hs₀]
                dsimp only
                rw [if_neg hnp, hslot]
                dsimp only
                rw [if_neg h1, if_neg h1, ho]
                dsimp only
                rw [hrefetch]
                rfl
              have hs' : (submitChoice S pid sid c now).1.sessions.find?
                  (fun x => decide (x.id = sid ∧ x.status = .playing)) =
                  some (chooseWritePatch none (some c) now s₀) := by
                rw [hEq]
                dsimp only
                rw [find?_map_pred_comm _ _ ?hcomm2, hs₀]
                case hcomm2 =>
                  intro x
                  by_cases hx : decide (x.id = sid) = true <;>
                    simp [hx, chooseWritePatch]
                simp only [Option.map_some']
                rw [if_pos (by simp [hplay₀.1])]
              have dup4 := submitChoice_dup_summary
                (submitChoice S pid sid c now).1 pid sid c now' P
                (chooseWritePatch none (some c) now s₀)
                (by rw [hEq]; exact hp) hs'
                (by exact hpart)
                (by simp [chooseWritePatch, h1])
              refine ⟨⟨dup4.1, dup4.2.1⟩, ?_, ?_,
                fun x u _ => ⟨dup4.2.2.1, dup4.2.2.2⟩⟩
              · intro s hsm hsf
                rw [hEq]
                refine List.mem_map.mpr ⟨s, hsm, if_neg ?_⟩
                simp only [decide_eq_true_eq]
                intro hid
                have hss : s = s₀ :=
                  mem_id_unique hids hsm hmem₀ (by rw [hid, hplay₀.1])
                rw [hss, hplay₀.2] at hsf
                exact absurd hsf (by decide)
              · intro x u h
                rw [hEq] at h
                simp at h
            · -- resolve by a slot-2 caller
              set RES : GameSession → GameSession :=
                resolvePatch a1 c ⟨determineWinner a1 c, a1, c⟩
                  (resolveStreakOf s₀ (determineWinner a1 c))
                  (resolveWinnerOf s₀ (determineWinner a1 c)) now with hRES
              have hEq : submitChoice S pid sid c now =
                  (if determineWinner a1 c ≠ RoundOutcome.draw ∧
                      resolveWinnerOf s₀ (determineWinner a1 c) = some pid
                    then
                      rankingFlow
                        { S with sessions := (condUpdate S.sessions (fun z => decide (z.id = sid)) RES).1 }
                        s₀.game_id pid (decide (s₀.player2_id = some pid))
                        (resolveStreakOf s₀ (determineWinner a1 c)) now
                    else
                      { S with sessions := (condUpdate S.sessions (fun z => decide (z.id = sid)) RES).1 },
                   okResp (RES s₀),
                   [Broadcast.sessionEnd sid (RES s₀)]) := by
                unfold submitChoice condUpdate
                rw [hp, hs₀]
                dsimp only
                rw [if_neg hnp, hslot]
                dsimp only
                rw [if_neg h1, if_neg h1, ho]
                dsimp only
                rw [hrefetch]
                rfl
              have hA : (submitChoice S pid sid c now).1.players =
                  S.players := by
                rw [hEq]
                split
                · exact (rankingFlow_fields _ _ _ _ _ _).1
                · rfl
              have hB : (submitChoice S pid sid c now).1.sessions =
                  (condUpdate S.sessions (fun z => decide (z.id = sid))
                    RES).1 := by
                rw [hEq]
                split
                · exact (rankingFlow_fields _ _ _ _ _ _).2
                · rfl
              have h404 := submitChoice_notPlaying
                (submitChoice S pid sid c now).1 pid sid c now' P
                (by rw [hA]; exact hp)
                (by
                  rw [hB]
                  simp only [condUpdate]
                  apply find?_map_none
                  intro x
                  by_cases hx : decide (x.id = sid) = true
                  · rw [if_pos hx]
                    simp [hRES, resolvePatch_status]
                  · rw [if_neg hx]
                    simp only [decide_eq_true_eq] at hx
                    simp [hx])
              refine ⟨⟨?_, ?_⟩, ?_, fun x u _ => ?_, ?_⟩
              · rw [h404]
              · rw [h404]
              · intro s hsm hsf
                rw [hB]
                simp only [condUpdate]
                refine List.mem_map.mpr ⟨s, hsm, if_neg ?_⟩
                simp only [decide_eq_true_eq]
                intro hid
                have hss : s = s₀ :=
                  mem_id_unique hids hsm hmem₀ (by rw [hid, hplay₀.1])
                rw [hss, hplay₀.2] at hsf
                exact absurd hsf (by decide)
              · rw [h404]
                exact ⟨rfl, rfl⟩
              · intro x u h
                rw [hEq] at h
                simp at h
        · -- duplicate submission: both calls leave the store unchanged
          have first4 := submitChoice_dup_summary S pid sid c now P s₀
            hp hs₀ hpart (hslot ▸ rfl)
          rw [first4.1]
          have second4 := submitChoice_dup_summary S pid sid c now' P s₀
            hp hs₀ hpart (hslot ▸ rfl)
          refine ⟨⟨second4.1, second4.2.1⟩, ?_, ?_, ?_⟩
          · exact fun s hs _ => hs
          · intro x u h
            rw [first4.2.1] at h
            simp at h
          · intro x u h
            rw [first4.2.1] at h
            simp at h

/-- Witness for `submit_idempotent`: player 2's resolving submission
followed by an identical retry; the retry changes nothing and is rejected
with 404. -/
theorem submit_idempotent_witness :
    (submitChoice
      (submitChoice
        ⟨[⟨1, "alice", none⟩, ⟨2, "bob", none⟩], [⟨10, "rps", true, none⟩],
         [⟨100, 10, 1, some 2, none, 0, .playing, some .rock, none, none, 0,
           0⟩], [], 101, 1⟩ 2 100 Choice.scissors 5).1
      2 100 Choice.scissors 6).1 =
    (submitChoice
      ⟨[⟨1, "alice", none⟩, ⟨2, "bob", none⟩], [⟨10, "rps", true, none⟩],
       [⟨100, 10, 1, some 2, none, 0, .playing, some .rock, none, none, 0,
         0⟩], [], 101, 1⟩ 2 100 Choice.scissors 5).1 ∧
    (submitChoice
      (submitChoice
        ⟨[⟨1, "alice", none⟩, ⟨2, "bob", none⟩], [⟨10, "rps", true, none⟩],
         [⟨100, 10, 1, some 2, none, 0, .playing, some .rock, none, none, 0,
           0⟩], [], 101, 1⟩ 2 100 Choice.scissors 5).1
      2 100 Choice.scissors 6).2.1.status = 404 := by
  have h := submit_idempotent
    ⟨[⟨1, "alice", none⟩, ⟨2, "bob", none⟩], [⟨10, "rps", true, none⟩],
     [⟨100, 10, 1, some 2, none, 0, .playing, some .rock, none, none, 0, 0⟩],
     [], 101, 1⟩ 2 100 Choice.scissors 5 6 (by decide)
  exact ⟨h.1.1, (h.2.2.1 100
    ⟨100, 10, 1, some 2, some 1, 1, .finished, some .rock, some .scissors,
      some ⟨.player1, .rock, .scissors⟩, 0, 5⟩ (by decide)).1⟩

/-- Counterexample to C1 as stated: after the round has been resolved, an
identical retried submission does NOT land on the duplicate
(`Already chose`) path; it is rejected by the playing-status session lookup
with 404 `Game session not found or not playing`. -/
theorem retry_after_resolution_counterexample :
    (submitChoice
      ⟨[⟨1, "alice", none⟩, ⟨2, "bob", none⟩], [⟨10, "rps", true, none⟩],
       [⟨100, 10, 1, some 2, none, 0, .playing, some .rock, none, none, 0,
         0⟩], [], 101, 1⟩ 2 100 Choice.scissors 5).1.sessions.map
      (·.status) = [SessionStatus.finished] ∧
    (submitChoice
      (submitChoice
        ⟨[⟨1, "alice", none⟩, ⟨2, "bob", none⟩], [⟨10, "rps", true, none⟩],
         [⟨100, 10, 1, some 2, none, 0, .playing, some .rock, none, none, 0,
           0⟩], [], 101, 1⟩ 2 100 Choice.scissors 5).1
      2 100 Choice.scissors 6).2.1.status = 404 ∧
    (submitChoice
      (submitChoice
        ⟨[⟨1, "alice", none⟩, ⟨2, "bob", none⟩], [⟨10, "rps", true, none⟩],
         [⟨100, 10, 1, some 2, none, 0, .playing, some .rock, none, none, 0,
           0⟩], [], 101, 1⟩ 2 100 Choice.scissors 5).1
      2 100 Choice.scissors 6).2.1.error =
      some "Game session not found or not playing" ∧
    ¬(submitChoice
      (submitChoice
        ⟨[⟨1, "alice", none⟩, ⟨2, "bob", none⟩], [⟨10, "rps", true, none⟩],
         [⟨100, 10, 1, some 2, none, 0, .playing, some .rock, none, none, 0,
           0⟩], [], 101, 1⟩ 2 100 Choice.scissors 5).1
      2 100 Choice.scissors 6).2.1.error = some "Already chose" := by
  decide

/-! ## C6: ranking entries are monotone -/

/-- The best-streak value stored for `(game, player)` (the first matching
row, as the unique-constrained lookup returns). -/
def rankStreakL (rks : List Ranking) (g p : Nat) : Option Nat :=
  (rks.find? fun r => decide (r.game_id = g ∧ r.player_id = p)).map
    (·.streak_count)

def rankStreak (S : Store) (g p : Nat) : Option Nat :=
  rankStreakL S.rankings g p

/-- Order on optional streaks: a missing entry is below everything, and a
present entry must stay present and not decrease. -/
def optLe : Option Nat → Option Nat → Prop
  | none, _ => True
  | some v, b => ∃ w, b = some w ∧ v ≤ w

theorem optLe_refl (a : Option Nat) : optLe a a := by
  cases a with
  | none => trivial
  | some v => exact ⟨v, rfl, le_refl v⟩

theorem optLe_trans {a b c : Option Nat} (hab : optLe a b) (hbc : optLe b c) :
    optLe a c := by
  cases a with
  | none => trivial
  | some v =>
    obtain ⟨w, hb, hvw⟩ := hab
    rw [hb] at hbc
    obtain ⟨w', hc, hww⟩ := hbc
    exact ⟨w', hc, le_trans hvw hww⟩

/-- Well-formedness of the rankings table: distinct primary keys below the
generator. -/
def RankWF (S : Store) : Prop :=
  (S.rankings.Pairwise fun a b => a.id ≠ b.id) ∧
  ∀ r ∈ S.rankings, r.id < S.nextRankingId

/-- Two rows of a key-Nodup list with the same key coincide. -/
theorem mem_key_unique {α : Type} (key : α → Nat) {l : List α}
    (h : l.Pairwise fun a b => key a ≠ key b) {x y : α}
    (hx : x ∈ l) (hy : y ∈ l) (hk : key x = key y) : x = y := by
  by_contra hne
  exact h.forall (fun a b hab => (hab ∘ Eq.symm)) hx hy hne hk

/-- The ranking upsert never decreases any stored `(game, player)` best. -/
theorem upsertRanking_optLe (rks : List Ranking)
    (nid gid pid : Nat) (name : String) (flag : Option String)
    (streak now : Nat) (hpw : rks.Pairwise fun a b => a.id ≠ b.id)
    (g p : Nat) :
    optLe (rankStreakL rks g p)
      (rankStreakL
        (upsertRanking rks nid gid pid name flag streak now).1 g p) := by
  unfold upsertRanking
  rcases her : rks.find?
      (fun r => decide (r.game_id = gid ∧ r.player_id = pid)) with _ | er
  · -- no existing row: insert
    rw [her]
    unfold rankStreakL
    rcases hfg : rks.find?
        (fun r => decide (r.game_id = g ∧ r.player_id = p)) with _ | r
    · rw [hfg]
      trivial
    · rw [hfg]
      dsimp only
      rw [List.find?_append, hfg]
      exact ⟨r.streak_count, rfl, le_refl _⟩
  · rw [her]
    dsimp only
    split
    · -- strict improvement: rewrite the existing row
      rename_i hlt
      unfold rankStreakL
      rw [find?_map_pred_comm _ _ ?hpres]
      case hpres =>
        intro x
        by_cases hx : x.id = er.id <;> simp [hx]
      rcases hfg : rks.find?
          (fun r => decide (r.game_id = g ∧ r.player_id = p)) with _ | r
      · rw [hfg]
        trivial
      · rw [hfg]
        simp only [Option.map_some']
        by_cases hid : r.id = er.id
        · rw [if_pos hid]
          have hmem_er : er ∈ rks := List.mem_of_find?_eq_some her
          have hmem_r : r ∈ rks := List.mem_of_find?_eq_some hfg
          have : r = er := mem_key_unique (·.id) hpw hmem_r hmem_er hid
          subst this
          exact ⟨streak, rfl, le_of_lt hlt⟩
        · rw [if_neg hid]
          exact ⟨r.streak_count, rfl, le_refl _⟩
    · exact optLe_refl _

/-- The ranking upsert preserves well-formedness of the table. -/
theorem upsertRanking_wf (rks : List Ranking)
    (nid gid pid : Nat) (name : String) (flag : Option String)
    (streak now : Nat) (hpw : rks.Pairwise fun a b => a.id ≠ b.id)
    (hbd : ∀ r ∈ rks, r.id < nid) :
    ((upsertRanking rks nid gid pid name flag streak now).1.Pairwise
      fun a b => a.id ≠ b.id) ∧
    ∀ r ∈ (upsertRanking rks nid gid pid name flag streak now).1,
      r.id < (upsertRanking rks nid gid pid name flag streak now).2 := by
  unfold upsertRanking
  rcases her : rks.find?
      (fun r => decide (r.game_id = gid ∧ r.player_id = pid)) with _ | er
  · rw [her]
    constructor
    · rw [List.pairwise_append]
      refine ⟨hpw, List.pairwise_singleton _ _, ?_⟩
      intro a ha b hb
      rw [List.mem_singleton] at hb
      subst hb
      exact Nat.ne_of_lt (hbd a ha)
    · intro r hr
      rcases List.mem_append.mp hr with h | h
      · exact Nat.lt_succ_of_lt (hbd r h)
      · rw [List.mem_singleton] at h
        subst h
        exact Nat.lt_succ_self nid
  · rw [her]
    dsimp only
    split
    · constructor
      · rw [List.pairwise_map]
        refine hpw.imp ?_
        intro a b hab
        split <;> split <;> exact hab
      · intro r hr
        rcases List.mem_map.mp hr with ⟨y, hy, rfl⟩
        split <;> exact hbd y hy
    · exact ⟨hpw, hbd⟩

theorem resolvePatch_rr (a b : Choice) (rr : RoundResult) (ns : Nat)
    (wid : Option Nat) (now : Nat) (x : GameSession) :
    (resolvePatch a b rr ns wid now x).round_result = some rr := by
  unfold resolvePatch
  cases wid <;> rfl

theorem resolvePatch_winner (a b : Choice) (rr : RoundResult) (ns : Nat)
    (w now : Nat) (x : GameSession) :
    (resolvePatch a b rr ns (some w) now x).winner_id = some w := rfl

/-- Effect of one `submitChoice` call on the rankings table: either the
table and its key generator are untouched, or they are the result of one
`upsertRanking` for the caller, and in that case the caller's session was
resolved to a non-draw with the caller as winner. -/
theorem submitChoice_shape (S : Store) (pid sid : Nat) (c : Choice)
    (now : Nat) :
    ((submitChoice S pid sid c now).1.rankings = S.rankings ∧
     (submitChoice S pid sid c now).1.nextRankingId = S.nextRankingId) ∨
    ((∃ gid name flag streak,
       (submitChoice S pid sid c now).1.rankings =
         (upsertRanking S.rankings S.nextRankingId gid pid name flag streak
           now).1 ∧
       (submitChoice S pid sid c now).1.nextRankingId =
         (upsertRanking S.rankings S.nextRankingId gid pid name flag streak
           now).2) ∧
     ∃ s' ∈ (submitChoice S pid sid c now).1.sessions,
       s'.id = sid ∧ s'.status = SessionStatus.finished ∧
       (∃ rr, s'.round_result = some rr ∧ rr.winner ≠ RoundOutcome.draw) ∧
       s'.winner_id = some pid) := by
  rcases hp : S.players.find? (fun q => decide (q.id = pid)) with _ | P
  · left
    have h : submitChoice S pid sid c now =
        (S, errResp 400 "Player not found", []) := by
      unfold submitChoice
      rw [hp]
    rw [h]
    exact ⟨rfl, rfl⟩
  · rcases hs₀ : S.sessions.find?
        (fun x => decide (x.id = sid ∧ x.status = .playing)) with _ | s₀
    · left
      rw [submitChoice_notPlaying S pid sid c now P hp hs₀]
      exact ⟨rfl, rfl⟩
    · by_cases hnp : ¬s₀.player1_id = pid ∧ ¬s₀.player2_id = some pid
      · left
        have h : submitChoice S pid sid c now =
            (S, errResp 403 "Not a participant", []) := by
          unfold submitChoice
          rw [hp, hs₀]
          dsimp only
          rw [if_pos hnp]
        rw [h]
        exact ⟨rfl, rfl⟩
      · rcases hslot : (if s₀.player1_id = pid then s₀.choice1
            else s₀.choice2) with _ | ch
        · -- caller's slot empty: a write happens
          rcases hrf : S.sessions.find? (fun z => decide (z.id = sid))
            with _ | t
          · -- the id-keyed update matched nothing: 500, store unchanged
            left
            have h : (submitChoice S pid sid c now).1 = S := by
              unfold submitChoice condUpdate
              rw [hp, hs₀]
              dsimp only
              rw [if_neg hnp, hslot]
              dsimp only
              by_cases h1 : s₀.player1_id = pid
              · rw [if_pos h1, if_pos h1]
                rcases ho : s₀.choice2 with _ | a2 <;>
                  · dsimp only
                    rw [hrf]
                    rfl
              · rw [if_neg h1, if_neg h1]
                rcases ho : s₀.choice1 with _ | a1 <;>
                  · dsimp only
                    rw [hrf]
                    rfl
            rw [h]
            exact ⟨rfl, rfl⟩
          · have hmemt : t ∈ S.sessions := List.mem_of_find?_eq_some hrf
            have htid : t.id = sid := by
              simpa using List.find?_some hrf
            by_cases h1 : s₀.player1_id = pid
            · rcases ho : s₀.choice2 with _ | a2
              · -- intermediate write: rankings untouched
                left
                have h : (submitChoice S pid sid c now).1 =
                    { S with sessions :=
                        (condUpdate S.sessions (fun z => decide (z.id = sid))
                          (chooseWritePatch (some c) none now)).1 } := by
                  unfold submitChoice condUpdate
                  rw [hp, hs₀]
                  dsimp only
                  rw [if_neg hnp, hslot]
                  dsimp only
                  rw [if_pos h1, if_pos h1, ho]
                  dsimp only
                  rw [hrf]
                  rfl
                rw [h]
                exact ⟨rfl, rfl⟩
              · -- resolve with choices (c, a2)
                by_cases hcond : determineWinner c a2 ≠ RoundOutcome.draw ∧
                    resolveWinnerOf s₀ (determineWinner c a2) = some pid
                · right
                  set RES : GameSession → GameSession :=
                    resolvePatch c a2 ⟨determineWinner c a2, c, a2⟩
                      (resolveStreakOf s₀ (determineWinner c a2))
                      (resolveWinnerOf s₀ (determineWinner c a2)) now
                    with hRES
                  have h : (submitChoice S pid sid c now).1 =
                      rankingFlow
                        { S with sessions := (condUpdate S.sessions (fun z => decide (z.id = sid)) RES).1 }
                        s₀.game_id pid (decide (s₀.player2_id = some pid))
                        (resolveStreakOf s₀ (determineWinner c a2)) now := by
                    unfold submitChoice condUpdate
                    rw [hp, hs₀]
                    dsimp only
                    rw [if_neg hnp, hslot]
                    dsimp only
                    rw [if_pos h1, if_pos h1, ho]
                    dsimp only
                    rw [hrf]
                    simp only [Option.map_some']
                    rw [if_pos hcond]
                  constructor
                  · refine ⟨s₀.game_id, P.nickname, P.country_flag,
                      streakForRanking
                        (condUpdate S.sessions (fun z => decide (z.id = sid))
                          RES).1 s₀.game_id pid
                        (decide (s₀.player2_id = some pid))
                        (resolveStreakOf s₀ (determineWinner c a2)), ?_, ?_⟩
                    · rw [h]
                      unfold rankingFlow
                      dsimp only
                      rw [hp]
                    · rw [h]
                      unfold rankingFlow
                      dsimp only
                      rw [hp]
                  · refine ⟨RES t, ?_, ?_, resolvePatch_status _ _ _ _ _ _ _,
                      ⟨⟨determineWinner c a2, c, a2⟩,
                        resolvePatch_rr _ _ _ _ _ _ _, hcond.1⟩, ?_⟩
                    · rw [h, (rankingFlow_fields _ _ _ _ _ _).2]
                      simp only [condUpdate]
                      exact List.mem_map.mpr ⟨t, hmemt, by rw [if_pos (by simp [htid])]⟩
                    · rw [resolvePatch_id, htid]
                    · rw [hRES, hcond.2]
                      exact resolvePatch_winner _ _ _ _ _ _ _
                · left
                  have h : (submitChoice S pid sid c now).1 =
                      { S with sessions :=
                          (condUpdate S.sessions
                            (fun z => decide (z.id = sid))
                            (resolvePatch c a2
                              ⟨determineWinner c a2, c, a2⟩
                              (resolveStreakOf s₀ (determineWinner c a2))
                              (resolveWinnerOf s₀ (determineWinner c a2))
                              now)).1 } := by
                    unfold submitChoice condUpdate
                    rw [hp, hs₀]
                    dsimp only
                    rw [if_neg hnp, hslot]
                    dsimp only
                    rw [if_pos h1, if_pos h1, ho]
                    dsimp only
                    rw [hrf]
                    simp only [Option.map_some']
                    rw [if_neg hcond]
                  rw [h]
                  exact ⟨rfl, rfl⟩
            · rcases ho : s₀.choice1 with _ | a1
              · left
                have h : (submitChoice S pid sid c now).1 =
                    { S with sessions :=
                        (condUpdate S.sessions (fun z => decide (z.id = sid))
                          (chooseWritePatch none (some c) now)).1 } := by
                  unfold submitChoice condUpdate
                  rw [hp, hs₀]
                  dsimp only
                  rw [if_neg hnp, hslot]
                  dsimp only
                  rw [if_neg h1, if_neg h1, ho]
                  dsimp only
                  rw [hrf]
                  rfl
                rw [h]
                exact ⟨rfl, rfl⟩
              · by_cases hcond : determineWinner a1 c ≠ RoundOutcome.draw ∧
                    resolveWinnerOf s₀ (determineWinner a1 c) = some pid
                · right
                  set RES : GameSession → GameSession :=
                    resolvePatch a1 c ⟨determineWinner a1 c, a1, c⟩
                      (resolveStreakOf s₀ (determineWinner a1 c))
                      (resolveWinnerOf s₀ (determineWinner a1 c)) now
                    with hRES
                  have h : (submitChoice S pid sid c now).1 =
                      rankingFlow
                        { S with sessions := (condUpdate S.sessions (fun z => decide (z.id = sid)) RES).1 }
                        s₀.game_id pid (decide (s₀.player2_id = some pid))
                        (resolveStreakOf s₀ (determineWinner a1 c)) now := by
                    unfold submitChoice condUpdate
                    rw [hp, hs₀]
                    dsimp only
                    rw [if_neg hnp, hslot]
                    dsimp only
                    rw [if_neg h1, if_neg h1, ho]
                    dsimp only
                    rw [hrf]
                    simp only [Option.map_some']
                    rw [if_pos hcond]
                  constructor
                  · refine ⟨s₀.game_id, P.nickname, P.country_flag,
                      streakForRanking
                        (condUpdate S.sessions (fun z => decide (z.id = sid))
                          RES).1 s₀.game_id pid
                        (decide (s₀.player2_id = some pid))
                        (resolveStreakOf s₀ (determineWinner a1 c)), ?_, ?_⟩
                    · rw [h]
                      unfold rankingFlow
                      dsimp only
                      rw [hp]
                    · rw [h]
                      unfold rankingFlow
                      dsimp only
                      rw [hp]
                  · refine ⟨RES t, ?_, ?_, resolvePatch_status _ _ _ _ _ _ _,
                      ⟨⟨determineWinner a1 c, a1, c⟩,
                        resolvePatch_rr _ _ _ _ _ _ _, hcond.1⟩, ?_⟩
                    · rw [h, (rankingFlow_fields _ _ _ _ _ _).2]
                      simp only [condUpdate]
                      exact List.mem_map.mpr ⟨t, hmemt, by rw [if_pos (by simp [htid])]⟩
                    · rw [resolvePatch_id, htid]
                    · rw [hRES, hcond.2]
                      exact resolvePatch_winner _ _ _ _ _ _ _
                · left
                  have h : (submitChoice S pid sid c now).1 =
                      { S with sessions :=
                          (condUpdate S.sessions
                            (fun z => decide (z.id = sid))
                            (resolvePatch a1 c
                              ⟨determineWinner a1 c, a1, c⟩
                              (resolveStreakOf s₀ (determineWinner a1 c))
                              (resolveWinnerOf s₀ (determineWinner a1 c))
                              now)).1 } := by
                    unfold submitChoice condUpdate
                    rw [hp, hs₀]
                    dsimp only
                    rw [if_neg hnp, hslot]
                    dsimp only
                    rw [if_neg h1, if_neg h1, ho]
                    dsimp only
                    rw [hrf]
                    simp only [Option.map_some']
                    rw [if_neg hcond]
                  rw [h]
                  exact ⟨rfl, rfl⟩
        · -- duplicate submission: nothing written
          left
          have h : submitChoice S pid sid c now =
              (S, ⟨400, some "Already chose",
                S.sessions.find? (fun z => decide (z.id = sid)), false⟩,
               []) := by
            unfold submitChoice
            rw [hp, hs₀]
            dsimp only
            rw [if_neg hnp, hslot]
          rw [h]
          exact ⟨rfl, rfl⟩

/-- Matchmaking never touches the rankings table. -/
theorem requestMatch_rankings (S : Store) (pid : Nat) (slug : String)
    (now : Nat) :
    (requestMatch S pid slug now).1.rankings = S.rankings ∧
    (requestMatch S pid slug now).1.nextRankingId = S.nextRankingId := by
  unfold requestMatch createWaitingSession condUpdate
  repeat' first
    | split
    | dsimp only
  all_goals exact ⟨rfl, rfl⟩

/-- Abandoning never touches the rankings table. -/
theorem abandonRoute_rankings (S : Store) (pid sid now : Nat) :
    (abandonRoute S pid sid now).1.rankings = S.rankings ∧
    (abandonRoute S pid sid now).1.nextRankingId = S.nextRankingId := by
  unfold abandonRoute condUpdate
  repeat' first
    | split
    | dsimp only
  all_goals exact ⟨rfl, rfl⟩

/-- One request keeps the rankings well-formed and never decreases any
stored best. -/
theorem runOp_rank_step (S : Store) (op : Op) (hwf : RankWF S) (g p : Nat) :
    optLe (rankStreak S g p) (rankStreak (runOp S op) g p) ∧
    RankWF (runOp S op) := by
  cases op with
  | reqMatch pid slug now =>
    have h := requestMatch_rankings S pid slug now
    constructor
    · show optLe _ (rankStreak (requestMatch S pid slug now).1 g p)
      unfold rankStreak
      rw [h.1]
      exact optLe_refl _
    · show RankWF (requestMatch S pid slug now).1
      unfold RankWF
      rw [h.1, h.2]
      exact hwf
  | abandon pid sid now =>
    have h := abandonRoute_rankings S pid sid now
    constructor
    · show optLe _ (rankStreak (abandonRoute S pid sid now).1 g p)
      unfold rankStreak
      rw [h.1]
      exact optLe_refl _
    · show RankWF (abandonRoute S pid sid now).1
      unfold RankWF
      rw [h.1, h.2]
      exact hwf
  | choose pid sid c now =>
    rcases submitChoice_shape S pid sid c now with ⟨h1, h2⟩ |
      ⟨⟨gid, name, flag, streak, h1, h2⟩, _⟩
    · constructor
      · show optLe _ (rankStreak (submitChoice S pid sid c now).1 g p)
        unfold rankStreak
        rw [h1]
        exact optLe_refl _
      · show RankWF (submitChoice S pid sid c now).1
        unfold RankWF
        rw [h1, h2]
        exact hwf
    · constructor
      · show optLe _ (rankStreak (submitChoice S pid sid c now).1 g p)
        unfold rankStreak
        rw [h1]
        exact upsertRanking_optLe S.rankings S.nextRankingId gid pid name
          flag streak now hwf.1 g p
      · show RankWF (submitChoice S pid sid c now).1
        unfold RankWF
        rw [h1, h2]
        exact upsertRanking_wf S.rankings S.nextRankingId gid pid name flag
          streak now hwf.1 hwf.2

/-- Monotonicity and well-formedness across any request sequence. -/
theorem runOps_rank (ops : List Op) (S : Store) (hwf : RankWF S)
    (g p : Nat) :
    optLe (rankStreak S g p) (rankStreak (runOps S ops) g p) ∧
    RankWF (runOps S ops) := by
  induction ops generalizing S with
  | nil => exact ⟨optLe_refl _, hwf⟩
  | cons op t ih =>
    have h := runOp_rank_step S op hwf g p
    have h2 := ih (runOp S op) h.2
    exact ⟨optLe_trans h.1 h2.1, h2.2⟩

/-- C6: for a fixed (game, player) pair, the stored ranking streak is
monotonically non-decreasing across any sequence of requests; rankings are
written only by `submitChoice`, and only when the caller's session was
resolved to a non-draw win with the caller as winner; an existing entry is
overwritten only when the newly achieved streak strictly exceeds the
stored best. -/
theorem ranking_monotone (S : Store) (ops : List Op) (g p : Nat)
    (hwf : RankWF S) :
    optLe (rankStreak S g p) (rankStreak (runOps S ops) g p) ∧
    (∀ pid slug now,
      (requestMatch S pid slug now).1.rankings = S.rankings) ∧
    (∀ pid sid now, (abandonRoute S pid sid now).1.rankings = S.rankings) ∧
    (∀ pid sid c now,
      (submitChoice S pid sid c now).1.rankings ≠ S.rankings →
      ∃ s' ∈ (submitChoice S pid sid c now).1.sessions,
        s'.id = sid ∧ s'.status = SessionStatus.finished ∧
        (∃ rr, s'.round_result = some rr ∧ rr.winner ≠ RoundOutcome.draw) ∧
        s'.winner_id = some pid) ∧
    (∀ pid sid c now v w,
      rankStreak S g p = some v →
      rankStreak (submitChoice S pid sid c now).1 g p = some w →
      v ≠ w → v < w) := by
  refine ⟨(runOps_rank ops S hwf g p).1,
    fun pid slug now => (requestMatch_rankings S pid slug now).1,
    fun pid sid now => (abandonRoute_rankings S pid sid now).1,
    fun pid sid c now hne => ?_,
    fun pid sid c now v w hv hw hne => ?_⟩
  · rcases submitChoice_shape S pid sid c now with ⟨h1, _⟩ | ⟨_, hs⟩
    · exact absurd h1 hne
    · exact hs
  · have h := (runOp_rank_step S (Op.choose pid sid c now) hwf g p).1
    rw [hv] at h
    obtain ⟨w', hw', hle⟩ := h
    have hww : some w' = some w := hw'.symm.trans hw
    injection hww with hww
    subst hww
    exact lt_of_le_of_ne hle hne

/-- Witness for `ranking_monotone`: player 2 has already chosen scissors;
player 1's winning rock submission creates a ranking entry, and the stored
best for (game 10, player 1) does not decrease. -/
theorem ranking_monotone_witness :
    optLe
      (rankStreak
        ⟨[⟨1, "alice", none⟩, ⟨2, "bob", none⟩], [⟨10, "rps", true, none⟩],
         [⟨100, 10, 1, some 2, none, 0, .playing, none, some .scissors, none,
           0, 0⟩], [], 101, 1⟩ 10 1)
      (rankStreak
        (runOps
          ⟨[⟨1, "alice", none⟩, ⟨2, "bob", none⟩], [⟨10, "rps", true, none⟩],
           [⟨100, 10, 1, some 2, none, 0, .playing, none, some .scissors,
             none, 0, 0⟩], [], 101, 1⟩
          [Op.choose 1 100 Choice.rock 5]) 10 1) ∧
    (∃ s' ∈ (submitChoice
        ⟨[⟨1, "alice", none⟩, ⟨2, "bob", none⟩], [⟨10, "rps", true, none⟩],
         [⟨100, 10, 1, some 2, none, 0, .playing, none, some .scissors, none,
           0, 0⟩], [], 101, 1⟩ 1 100 Choice.rock 5).1.sessions,
      s'.id = 100 ∧ s'.status = SessionStatus.finished ∧
      (∃ rr, s'.round_result = some rr ∧ rr.winner ≠ RoundOutcome.draw) ∧
      s'.winner_id = some 1) := by
  have h := ranking_monotone
    ⟨[⟨1, "alice", none⟩, ⟨2, "bob", none⟩], [⟨10, "rps", true, none⟩],
     [⟨100, 10, 1, some 2, none, 0, .playing, none, some .scissors, none, 0,
       0⟩], [], 101, 1⟩
    [Op.choose 1 100 Choice.rock 5] 10 1 ⟨by decide, by decide⟩
  exact ⟨h.1, h.2.2.2.1 1 100 Choice.rock 5 (by decide)⟩

/-! ## C7: active sessions per player -/

/-- A session is active for player `p` in game `g` when `p` fills a slot
and the status is waiting or playing. -/
def activeForB (p g : Nat) (s : GameSession) : Bool :=
  decide (s.game_id = g ∧ (s.player1_id = p ∨ s.player2_id = some p) ∧
    (s.status = .waiting ∨ s.status = .playing))

/-- Number of sessions active for `p` in game `g`. -/
def activeCount (S : Store) (p g : Nat) : Nat :=
  S.sessions.countP (activeForB p g)

/-- Well-formedness of the sessions table: distinct primary keys below the
generator. -/
def SessWF (S : Store) : Prop :=
  (S.sessions.Pairwise fun a b => a.id ≠ b.id) ∧
  ∀ s ∈ S.sessions, s.id < S.nextSessionId

theorem countP_map_le {α : Type} (pq : α → Bool) (f : α → α) (l : List α)
    (h : ∀ x, pq (f x) = true → pq x = true) :
    (l.map f).countP pq ≤ l.countP pq := by
  induction l with
  | nil => simp
  | cons a t ih =>
    simp only [List.map_cons, List.countP_cons]
    by_cases ha : pq (f a) = true
    · rw [if_pos ha, if_pos (h a ha)]
      exact Nat.add_le_add ih (le_refl 1)
    · rw [if_neg ha]
      exact Nat.add_le_add ih (Nat.zero_le _)

theorem countP_map_zero {α : Type} (pq : α → Bool) (f : α → α) (l : List α)
    (h : ∀ x ∈ l, pq (f x) = false) : (l.map f).countP pq = 0 := by
  rw [List.countP_eq_zero]
  intro a ha
  rcases List.mem_map.mp ha with ⟨y, hy, rfl⟩
  simp [h y hy]

theorem countP_key_le_one {α : Type} (key : α → Nat) (l : List α)
    (h : l.Pairwise fun a b => key a ≠ key b) (i : Nat) :
    l.countP (fun x => decide (key x = i)) ≤ 1 := by
  induction l with
  | nil => simp
  | cons a t ih =>
    rw [List.pairwise_cons] at h
    rw [List.countP_cons]
    by_cases ha : key a = i
    · have hzero : t.countP (fun x => decide (key x = i)) = 0 := by
        rw [List.countP_eq_zero]
        intro b hb
        simp only [decide_eq_true_eq]
        intro hbk
        exact h.1 b hb (ha.trans hbk.symm)
      simp [hzero, ha]
    · simp only [ha, decide_eq_true_eq]
      simpa using ih h.2

theorem map_eq_self_of {α : Type} (l : List α) (f : α → α)
    (h : ∀ x ∈ l, f x = x) : l.map f = l := by
  induction l with
  | nil => rfl
  | cons a t ih =>
    rw [List.map_cons, h a (List.mem_cons_self a t),
      ih fun x hx => h x (List.mem_cons_of_mem a hx)]

/-- Counting through a map that patches exactly the single row `w`. -/
theorem countP_map_patch_single {α : Type} [DecidableEq α] (l : List α)
    (hnd : l.Nodup) (w : α) (hw : w ∈ l) (f : α → α)
    (hf : ∀ x ∈ l, f x = if x = w then f w else x) (pq : α → Bool) :
    (l.map f).countP pq + (if pq w then 1 else 0) =
      l.countP pq + (if pq (f w) then 1 else 0) := by
  obtain ⟨l₁, l₂, rfl⟩ := List.append_of_mem hw
  rw [List.nodup_append] at hnd
  obtain ⟨hn1, hn2, hdisj⟩ := hnd
  have hw1 : w ∉ l₁ := fun hmem => hdisj hmem (List.mem_cons_self w l₂)
  rw [List.nodup_cons] at hn2
  have hw2 : w ∉ l₂ := hn2.1
  have hmap1 : l₁.map f = l₁ :=
    map_eq_self_of l₁ f fun x hx => by
      rw [hf x (List.mem_append_left _ hx)]
      exact if_neg fun (heq : x = w) => hw1 (heq ▸ hx)
  have hmap2 : l₂.map f = l₂ :=
    map_eq_self_of l₂ f fun x hx => by
      rw [hf x (List.mem_append_right _ (List.mem_cons_of_mem w hx))]
      exact if_neg fun (heq : x = w) => hw2 (heq ▸ hx)
  have hfw : f w = if w = w then f w else w :=
    hf w (List.mem_append_right _ (List.mem_cons_self w l₂))
  rw [List.map_append, List.map_cons, hmap1, hmap2]
  simp only [List.countP_append, List.countP_cons]
  omega

theorem pairwise_ids_map (l : List GameSession)
    (f : GameSession → GameSession) (hid : ∀ x, (f x).id = x.id)
    (h : l.Pairwise fun a b => a.id ≠ b.id) :
    (l.map f).Pairwise fun a b => a.id ≠ b.id := by
  rw [List.pairwise_map]
  refine h.imp ?_
  intro a b hab
  rw [hid, hid]
  exact hab

theorem bound_ids_map (l : List GameSession) (f : GameSession → GameSession)
    (n : Nat) (hid : ∀ x, (f x).id = x.id) (h : ∀ s ∈ l, s.id < n) :
    ∀ s ∈ l.map f, s.id < n := by
  intro s hs
  rcases List.mem_map.mp hs with ⟨y, hy, rfl⟩
  rw [hid]
  exact h y hy

theorem condPatch_id (sid : Nat) (g : GameSession → GameSession)
    (hg : ∀ x, (g x).id = x.id) (x : GameSession) :
    (if decide (x.id = sid) = true then g x else x).id = x.id := by
  by_cases hx : decide (x.id = sid) = true <;> simp [hx, hg]

/-- `submitChoice` preserves sessions-table well-formedness. -/
theorem submitChoice_sessWF (S : Store) (pid sid : Nat) (c : Choice)
    (now : Nat) (hWF : SessWF S) :
    SessWF (submitChoice S pid sid c now).1 := by
  unfold submitChoice condUpdate rankingFlow
  repeat' first
    | dsimp only
    | split
  all_goals first
    | exact hWF
    | exact ⟨pairwise_ids_map _ _
        (condPatch_id sid _ fun x => resolvePatch_id _ _ _ _ _ _ x) hWF.1,
      bound_ids_map _ _ _
        (condPatch_id sid _ fun x => resolvePatch_id _ _ _ _ _ _ x) hWF.2⟩
    | exact ⟨pairwise_ids_map _ _
        (condPatch_id sid _ fun x => rfl) hWF.1,
      bound_ids_map _ _ _ (condPatch_id sid _ fun x => rfl) hWF.2⟩

/-- `abandonRoute` preserves sessions-table well-formedness. -/
theorem abandonRoute_sessWF (S : Store) (pid sid now : Nat)
    (hWF : SessWF S) : SessWF (abandonRoute S pid sid now).1 := by
  unfold abandonRoute condUpdate
  repeat' first
    | dsimp only
    | split
  all_goals first
    | exact hWF
    | exact ⟨pairwise_ids_map _ _
        (condPatch_id sid _ fun x => rfl) hWF.1,
      bound_ids_map _ _ _ (condPatch_id sid _ fun x => rfl) hWF.2⟩

/-- `submitChoice` never increases any player's active-session count. -/
theorem submitChoice_count_le (S : Store) (pid sid : Nat) (c : Choice)
    (now p g : Nat) :
    activeCount (submitChoice S pid sid c now).1 p g ≤
      activeCount S p g := by
  unfold activeCount submitChoice condUpdate rankingFlow
  repeat' first
    | dsimp only
    | split
  all_goals first
    | exact le_refl _
    | (apply countP_map_le
       intro x hx
       by_cases hid : decide (x.id = sid) = true
       · rw [if_pos hid] at hx
         first
         | exact hx
         | (unfold activeForB at hx
            rw [decide_eq_true_eq] at hx
            rcases hx.2.2 with h | h <;> rw [resolvePatch_status] at h <;>
              exact absurd h (by decide))
       · rwa [if_neg hid] at hx)

/-- `abandonRoute` never increases any player's active-session count. -/
theorem abandonRoute_count_le (S : Store) (pid sid now p g : Nat) :
    activeCount (abandonRoute S pid sid now).1 p g ≤ activeCount S p g := by
  unfold activeCount abandonRoute condUpdate
  repeat' first
    | dsimp only
    | split
  all_goals first
    | exact le_refl _
    | (apply countP_map_le
       intro x hx
       by_cases hid : decide (x.id = sid) = true
       · rw [if_pos hid] at hx
         unfold activeForB at hx
         rw [decide_eq_true_eq] at hx
         rcases hx.2.2 with h | h <;> simp at h
       · rwa [if_neg hid] at hx)

/-- Claiming a waiting session `w` adds at most the requester's slot for
`w`'s game: the count rises only at `(pid, gid)`, elsewhere it can only
shift from `w`'s owner to itself. -/
theorem join_count_le (l : List GameSession)
    (hpw : l.Pairwise fun a b => a.id ≠ b.id) (w : GameSession)
    (hmem : w ∈ l) (hwstat : w.status = .waiting)
    (gid : Nat) (hwgid : w.game_id = gid)
    (pid now p g : Nat) :
    (l.map fun s =>
      if decide (s.id = w.id ∧ s.status = SessionStatus.waiting) = true then
        joinPatch pid now s
      else s).countP (activeForB p g) ≤
      l.countP (activeForB p g) + (if p = pid ∧ g = gid then 1 else 0) := by
  have hnd : l.Nodup := hpw.imp fun hab heq => hab (congrArg (·.id) heq)
  have hq : decide (w.id = w.id ∧ w.status = SessionStatus.waiting) = true :=
    by simp [hwstat]
  have hf : ∀ x ∈ l,
      (if decide (x.id = w.id ∧ x.status = SessionStatus.waiting) = true then
        joinPatch pid now x else x) =
      if x = w then
        (if decide (w.id = w.id ∧ w.status = SessionStatus.waiting) = true
          then joinPatch pid now w else w)
      else x := by
    intro x hx
    by_cases hxw : x = w
    · rw [if_pos hxw, hxw]
    · rw [if_neg hxw]
      refine if_neg ?_
      simp only [decide_eq_true_eq, not_and]
      intro hid
      exact absurd (mem_id_unique hpw hx hmem hid) hxw
  have heq := countP_map_patch_single l hnd w hmem _ hf (activeForB p g)
  rw [if_pos hq] at heq
  have hBA : (if activeForB p g (joinPatch pid now w) then 1 else 0) ≤
      (if activeForB p g w then 1 else 0) +
      (if p = pid ∧ g = gid then 1 else 0) := by
    by_cases hb : activeForB p g (joinPatch pid now w) = true
    · rw [if_pos hb]
      unfold activeForB joinPatch at hb
      rw [decide_eq_true_eq] at hb
      obtain ⟨hg', hpart', _⟩ := hb
      rcases hpart' with hp1 | hp2
      · have hA : activeForB p g w = true := by
          unfold activeForB
          rw [decide_eq_true_eq]
          exact ⟨hg', Or.inl hp1, Or.inl hwstat⟩
        rw [if_pos hA]
        omega
      · injection hp2 with hp2
        have hT : p = pid ∧ g = gid := ⟨hp2.symm, by rw [← hg', hwgid]⟩
        rw [if_pos hT]
        omega
    · rw [if_neg hb]
      exact Nat.zero_le _
  omega

/-- `createWaitingSession` adds at most one active session, only for the
requester in this game. -/
theorem cws_count_le (S : Store) (gid pid now : Nat) (hWF : SessWF S)
    (p g : Nat) :
    activeCount (createWaitingSession S gid pid now).1 p g ≤
      activeCount S p g + (if p = pid ∧ g = gid then 1 else 0) := by
  set ins := freshWaitingSession S gid pid now with hins
  have hInsId : ins.id = S.nextSessionId := rfl
  have hpwM : (S.sessions ++ [ins]).Pairwise fun a b => a.id ≠ b.id := by
    rw [List.pairwise_append]
    refine ⟨hWF.1, List.pairwise_singleton _ _, ?_⟩
    intro a ha b hb
    rw [List.mem_singleton] at hb
    subst hb
    rw [hInsId]
    exact Nat.ne_of_lt (hWF.2 a ha)
  have hInsIte : (if activeForB p g ins then 1 else 0) ≤
      (if p = pid ∧ g = gid then 1 else 0) := by
    by_cases hb : activeForB p g ins = true
    · rw [if_pos hb]
      unfold activeForB at hb
      rw [decide_eq_true_eq] at hb
      obtain ⟨hg', hpart', _⟩ := hb
      rcases hpart' with hp1 | hp2
      · have hp1' : pid = p := hp1
        have hg'' : gid = g := hg'
        rw [if_pos ⟨hp1'.symm, hg''.symm⟩]
      · exact absurd (show (none : Option Nat) = some p from hp2) (by simp)
    · rw [if_neg hb]
      exact Nat.zero_le _
  have hM₀ : (S.sessions ++ [ins]).countP (activeForB p g) =
      S.sessions.countP (activeForB p g) +
        (if activeForB p g ins then 1 else 0) := by
    rw [List.countP_append, List.countP_cons, List.countP_nil]
    omega
  unfold activeCount createWaitingSession condUpdate
  rw [← hins]
  dsimp only
  split
  · rename_i w hw
    -- another waiting session found: try the conditional claim
    have hwmem := earliestBy_mem hw
    rw [List.mem_filter, Bool.and_eq_true] at hwmem
    obtain ⟨hwM, how, hne⟩ := hwmem
    unfold otherWaitingPred at how
    rw [decide_eq_true_eq] at how hne
    obtain ⟨hwgid, hwstat, hwp1, hwp2⟩ := how
    split
    · rename_i joined hjoin
      -- claim succeeded; the just-created session is then cancelled
      dsimp only
      have h1 := join_count_le (S.sessions ++ [ins]) hpwM w hwM hwstat gid
        hwgid pid now p g
      have hpwM₁ : ((S.sessions ++ [ins]).map fun s =>
          if decide (s.id = w.id ∧ s.status = SessionStatus.waiting) = true
          then joinPatch pid now s else s).Pairwise
          fun a b => a.id ≠ b.id := by
        apply pairwise_ids_map _ _ ?_ hpwM
        intro x
        by_cases hc : decide (x.id = w.id ∧
            x.status = SessionStatus.waiting) = true <;>
          simp [hc, joinPatch]
      have hinsJ : (if decide (ins.id = w.id ∧
          ins.status = SessionStatus.waiting) = true
          then joinPatch pid now ins else ins) = ins := by
        refine if_neg ?_
        simp only [decide_eq_true_eq, not_and]
        intro hid
        exact absurd hid.symm hne
      have hmemM₁ : ins ∈ (S.sessions ++ [ins]).map fun s =>
          if decide (s.id = w.id ∧ s.status = SessionStatus.waiting) = true
          then joinPatch pid now s else s :=
        List.mem_map.mpr ⟨ins,
          List.mem_append_right _ (List.mem_singleton_self _), hinsJ⟩
      have hndM₁ := hpwM₁.imp
        fun hab heq => hab (congrArg GameSession.id heq)
      have hfC : ∀ y ∈ (S.sessions ++ [ins]).map fun s =>
          if decide (s.id = w.id ∧ s.status = SessionStatus.waiting) = true
          then joinPatch pid now s else s,
          (if decide (y.id = ins.id) = true then
            { y with status := SessionStatus.cancelled, updated_at := now }
          else y) =
          if y = ins then
            (if decide (ins.id = ins.id) = true then
              { ins with status := SessionStatus.cancelled,
                         updated_at := now }
            else ins)
          else y := by
        intro y hy
        by_cases hyi : y = ins
        · rw [if_pos hyi, hyi]
        · rw [if_neg hyi]
          refine if_neg ?_
          simp only [decide_eq_true_eq]
          intro hid
          exact absurd (mem_id_unique hpwM₁ hy hmemM₁ hid) hyi
      have heq2 := countP_map_patch_single _ hndM₁ ins hmemM₁ _ hfC
        (activeForB p g)
      have hciE : (if decide (ins.id = ins.id) = true then
          { ins with status := SessionStatus.cancelled, updated_at := now }
          else ins) =
          { ins with status := SessionStatus.cancelled,
                     updated_at := now } :=
        if_pos (by rw [decide_eq_true_eq])
      rw [hciE] at heq2
      have hcanc : (if activeForB p g
          { ins with status := SessionStatus.cancelled, updated_at := now }
          then 1 else 0) = 0 := by
        unfold activeForB
        simp
      rw [hcanc] at heq2
      omega
    · -- claim failed: keep the inserted waiting session
      dsimp only
      show (S.sessions ++ [ins]).countP (activeForB p g) ≤ _
      omega
  · -- no other waiting session
    dsimp only
    show (S.sessions ++ [ins]).countP (activeForB p g) ≤ _
    omega

/-- `createWaitingSession` preserves sessions-table well-formedness. -/
theorem cws_sessWF (S : Store) (gid pid now : Nat) (hWF : SessWF S) :
    SessWF (createWaitingSession S gid pid now).1 := by
  set ins := freshWaitingSession S gid pid now with hins
  have hInsId : ins.id = S.nextSessionId := rfl
  have hpwM : (S.sessions ++ [ins]).Pairwise fun a b => a.id ≠ b.id := by
    rw [List.pairwise_append]
    refine ⟨hWF.1, List.pairwise_singleton _ _, ?_⟩
    intro a ha b hb
    rw [List.mem_singleton] at hb
    subst hb
    rw [hInsId]
    exact Nat.ne_of_lt (hWF.2 a ha)
  have hbdM : ∀ s ∈ S.sessions ++ [ins], s.id < S.nextSessionId + 1 := by
    intro s hs
    rcases List.mem_append.mp hs with h | h
    · exact Nat.lt_succ_of_lt (hWF.2 s h)
    · rw [List.mem_singleton] at h
      subst h
      rw [hInsId]
      exact Nat.lt_succ_self _
  unfold createWaitingSession condUpdate
  rw [← hins]
  dsimp only
  split
  · rename_i w hw
    split
    · rename_i joined hjoin
      dsimp only
      constructor
      · apply pairwise_ids_map _ _ ?_
        · apply pairwise_ids_map _ _ ?_ hpwM
          intro x
          by_cases hc : decide (x.id = w.id ∧
              x.status = SessionStatus.waiting) = true <;>
            simp [hc, joinPatch]
        · intro x
          by_cases hc : decide (x.id = ins.id) = true <;> simp [hc]
      · apply bound_ids_map _ _ _ ?_
        · apply bound_ids_map _ _ _ ?_ hbdM
          intro x
          by_cases hc : decide (x.id = w.id ∧
              x.status = SessionStatus.waiting) = true <;>
            simp [hc, joinPatch]
        · intro x
          by_cases hc : decide (x.id = ins.id) = true <;> simp [hc]
    · exact ⟨hpwM, hbdM⟩
  · exact ⟨hpwM, hbdM⟩

/-- `requestMatch` preserves sessions-table well-formedness. -/
theorem requestMatch_sessWF (S : Store) (pid : Nat) (slug : String)
    (now : Nat) (hWF : SessWF S) :
    SessWF (requestMatch S pid slug now).1 := by
  rcases hpq : S.players.find? (fun q => decide (q.id = pid)) with _ | P
  · have h : requestMatch S pid slug now =
        (S, errResp 400 "Player not found. Set nickname first.", []) := by
      unfold requestMatch
      rw [hpq]
    rw [h]
    exact hWF
  · rcases hgq : S.games.find?
        (fun gm => decide (gm.slug = slug ∧ gm.is_active)) with _ | game
    · have h : requestMatch S pid slug now =
          (S, errResp 404 "Game not found", []) := by
        unfold requestMatch
        rw [hpq, hgq]
      rw [h]
      exact hWF
    · set CR : List GameSession := S.sessions.map fun s =>
        if decide (s.game_id = game.id ∧
            (s.status = SessionStatus.waiting ∨
              s.status = SessionStatus.playing) ∧
            (s.player1_id = pid ∨ s.player2_id = some pid)) = true then
          { s with status := SessionStatus.cancelled, updated_at := now }
        else s with hCR
      have hWF₁ : SessWF { S with sessions := CR } := by
        rw [hCR]
        constructor
        · apply pairwise_ids_map _ _ ?_ hWF.1
          intro x
          by_cases hc : decide (x.game_id = game.id ∧
              (x.status = SessionStatus.waiting ∨
                x.status = SessionStatus.playing) ∧
              (x.player1_id = pid ∨ x.player2_id = some pid)) = true <;>
            simp [hc]
        · apply bound_ids_map _ _ _ ?_ hWF.2
          intro x
          by_cases hc : decide (x.game_id = game.id ∧
              (x.status = SessionStatus.waiting ∨
                x.status = SessionStatus.playing) ∧
              (x.player1_id = pid ∨ x.player2_id = some pid)) = true <;>
            simp [hc]
      unfold requestMatch condUpdate
      rw [hpq, hgq]
      dsimp only
      split
      · rename_i w hw
        split
        · rename_i updated hupd
          dsimp only
          constructor
          · apply pairwise_ids_map _ _ ?_ hWF₁.1
            intro x
            by_cases hc : decide (x.id = w.id ∧
                x.status = SessionStatus.waiting) = true <;>
              simp [hc, joinPatch]
          · apply bound_ids_map _ _ _ ?_ hWF₁.2
            intro x
            by_cases hc : decide (x.id = w.id ∧
                x.status = SessionStatus.waiting) = true <;>
              simp [hc, joinPatch]
        · exact cws_sessWF _ game.id pid now hWF₁
      · exact cws_sessWF _ game.id pid now hWF₁

/-- `requestMatch` keeps every per-game active count at `max count 1`, and
leaves the requester with at most one active session in the requested
game. -/
theorem requestMatch_counts (S : Store) (pid : Nat) (slug : String)
    (now : Nat) (hWF : SessWF S) (p g : Nat) :
    activeCount (requestMatch S pid slug now).1 p g ≤
      max (activeCount S p g) 1 ∧
    (∀ game P,
      S.players.find? (fun q => decide (q.id = pid)) = some P →
      S.games.find? (fun gm => decide (gm.slug = slug ∧ gm.is_active)) =
        some game →
      p = pid → g = game.id →
      activeCount (requestMatch S pid slug now).1 p g ≤ 1) := by
  rcases hpq : S.players.find? (fun q => decide (q.id = pid)) with _ | P
  · have h : requestMatch S pid slug now =
        (S, errResp 400 "Player not found. Set nickname first.", []) := by
      unfold requestMatch
      rw [hpq]
    rw [h]
    refine ⟨le_max_left _ _, ?_⟩
    intro game P' hP' _ _ _
    rw [hpq] at hP'
    exact absurd hP' (by simp)
  · rcases hgq : S.games.find?
        (fun gm => decide (gm.slug = slug ∧ gm.is_active)) with _ | game
    · have h : requestMatch S pid slug now =
          (S, errResp 404 "Game not found", []) := by
        unfold requestMatch
        rw [hpq, hgq]
      rw [h]
      refine ⟨le_max_left _ _, ?_⟩
      intro game' P' _ hg' _ _
      rw [hgq] at hg'
      exact absurd hg' (by simp)
    · set CR : List GameSession := S.sessions.map fun s =>
        if decide (s.game_id = game.id ∧
            (s.status = SessionStatus.waiting ∨
              s.status = SessionStatus.playing) ∧
            (s.player1_id = pid ∨ s.player2_id = some pid)) = true then
          { s with status := SessionStatus.cancelled, updated_at := now }
        else s with hCR
      have hCRpw : CR.Pairwise fun a b => a.id ≠ b.id := by
        rw [hCR]
        apply pairwise_ids_map _ _ ?_ hWF.1
        intro x
        by_cases hc : decide (x.game_id = game.id ∧
            (x.status = SessionStatus.waiting ∨
              x.status = SessionStatus.playing) ∧
            (x.player1_id = pid ∨ x.player2_id = some pid)) = true <;>
          simp [hc]
      have hzero : CR.countP (activeForB pid game.id) = 0 := by
        rw [hCR]
        apply countP_map_zero
        intro x _
        by_cases hc : decide (x.game_id = game.id ∧
            (x.status = SessionStatus.waiting ∨
              x.status = SessionStatus.playing) ∧
            (x.player1_id = pid ∨ x.player2_id = some pid)) = true
        · rw [if_pos hc]
          unfold activeForB
          simp
        · rw [if_neg hc]
          unfold activeForB
          rw [decide_eq_false_iff_not]
          intro hx
          apply hc
          rw [decide_eq_true_eq]
          exact ⟨hx.1, hx.2.2, hx.2.1⟩
      have hle : CR.countP (activeForB p g) ≤
          S.sessions.countP (activeForB p g) := by
        rw [hCR]
        apply countP_map_le
        intro x hx
        by_cases hc : decide (x.game_id = game.id ∧
            (x.status = SessionStatus.waiting ∨
              x.status = SessionStatus.playing) ∧
            (x.player1_id = pid ∨ x.player2_id = some pid)) = true
        · rw [if_pos hc] at hx
          unfold activeForB at hx
          rw [decide_eq_true_eq] at hx
          rcases hx.2.2 with h | h <;> simp at h
        · rwa [if_neg hc] at hx
      have hWF₁ : SessWF { S with sessions := CR } := by
        constructor
        · exact hCRpw
        · rw [hCR]
          apply bound_ids_map _ _ _ ?_ hWF.2
          intro x
          by_cases hc : decide (x.game_id = game.id ∧
              (x.status = SessionStatus.waiting ∨
                x.status = SessionStatus.playing) ∧
              (x.player1_id = pid ∨ x.player2_id = some pid)) = true <;>
            simp [hc]
      have hmain : activeCount (requestMatch S pid slug now).1 p g ≤
          CR.countP (activeForB p g) +
            (if p = pid ∧ g = game.id then 1 else 0) := by
        unfold activeCount requestMatch condUpdate
        rw [hpq, hgq]
        dsimp only
        split
        · rename_i w hw
          split
          · rename_i updated hupd
            dsimp only
            have hwmem := earliestBy_mem hw
            rw [List.mem_filter] at hwmem
            obtain ⟨hwM, how⟩ := hwmem
            unfold otherWaitingPred at how
            rw [decide_eq_true_eq] at how
            obtain ⟨hwgid, hwstat, hwp1, hwp2⟩ := how
            exact join_count_le _ hCRpw w hwM hwstat game.id hwgid pid now
              p g
          · exact cws_count_le _ game.id pid now hWF₁ p g
        · exact cws_count_le _ game.id pid now hWF₁ p g
      constructor
      · by_cases hT : p = pid ∧ g = game.id
        · obtain ⟨hp', hg'⟩ := hT
          subst hp'
          subst hg'
          rw [if_pos ⟨rfl, rfl⟩, hzero] at hmain
          exact le_trans hmain (le_max_right _ _)
        · rw [if_neg hT] at hmain
          refine le_trans hmain ?_
          rw [Nat.add_zero]
          exact le_trans hle (le_max_left _ _)
      · intro game' P' hP' hg' hp' hgid'
        rw [hgq] at hg'
        injection hg' with hg'
        subst hg'
        subst hp'
        subst hgid'
        rw [if_pos ⟨rfl, rfl⟩, hzero] at hmain
        exact hmain

/-- One request preserves sessions well-formedness and the per-game
one-active-session invariant. -/
theorem runOp_active_step (S : Store) (op : Op) (hWF : SessWF S)
    (hinv : ∀ p g, activeCount S p g ≤ 1) :
    SessWF (runOp S op) ∧ ∀ p g, activeCount (runOp S op) p g ≤ 1 := by
  cases op with
  | reqMatch pid slug now =>
    refine ⟨requestMatch_sessWF S pid slug now hWF, ?_⟩
    intro p g
    exact le_trans (requestMatch_counts S pid slug now hWF p g).1
      (max_le (hinv p g) (le_refl 1))
  | choose pid sid c now =>
    exact ⟨submitChoice_sessWF S pid sid c now hWF,
      fun p g => le_trans (submitChoice_count_le S pid sid c now p g)
        (hinv p g)⟩
  | abandon pid sid now =>
    exact ⟨abandonRoute_sessWF S pid sid now hWF,
      fun p g => le_trans (abandonRoute_count_le S pid sid now p g)
        (hinv p g)⟩

/-- The invariant holds after any request sequence. -/
theorem runOps_active (ops : List Op) (S : Store) (hWF : SessWF S)
    (hinv : ∀ p g, activeCount S p g ≤ 1) :
    SessWF (runOps S ops) ∧
    ∀ p g, activeCount (runOps S ops) p g ≤ 1 := by
  induction ops generalizing S with
  | nil => exact ⟨hWF, hinv⟩
  | cons op t ih =>
    have h := runOp_active_step S op hWF hinv
    exact ih (runOp S op) h.1 h.2

/-- C7 (amended to per-game): a player is a participant in at most one
active (waiting or playing) session *per game* at a time: the invariant is
preserved by every request sequence, and a `requestMatch` call leaves the
requester with at most one active session in the requested game because it
first cancels all of the requester's own waiting/playing sessions for that
game. -/
theorem active_sessions_per_game (S : Store) (ops : List Op) (pid : Nat)
    (slug : String) (now : Nat) (hWF : SessWF S) :
    ((∀ p g, activeCount S p g ≤ 1) →
      ∀ p g, activeCount (runOps S ops) p g ≤ 1) ∧
    (∀ game P,
      S.players.find? (fun q => decide (q.id = pid)) = some P →
      S.games.find? (fun gm => decide (gm.slug = slug ∧ gm.is_active)) =
        some game →
      activeCount (requestMatch S pid slug now).1 pid game.id ≤ 1) := by
  constructor
  · intro hinv
    exact (runOps_active ops S hWF hinv).2
  · intro game P hP hg
    exact (requestMatch_counts S pid slug now hWF pid game.id).2 game P hP
      hg rfl rfl

/-- Witness for `active_sessions_per_game` on a concrete store. -/
theorem active_sessions_per_game_witness :
    (∀ p g, activeCount
      (runOps
        ⟨[⟨1, "alice", none⟩, ⟨2, "bob", none⟩], [⟨10, "rps", true, none⟩],
         [], [], 100, 1⟩
        [Op.reqMatch 1 "rps" 0, Op.reqMatch 2 "rps" 1,
         Op.choose 1 100 Choice.rock 2]) p g ≤ 1) ∧
    activeCount
      (requestMatch
        ⟨[⟨1, "alice", none⟩, ⟨2, "bob", none⟩], [⟨10, "rps", true, none⟩],
         [], [], 100, 1⟩ 1 "rps" 0).1 1 10 ≤ 1 := by
  have h := active_sessions_per_game
    ⟨[⟨1, "alice", none⟩, ⟨2, "bob", none⟩], [⟨10, "rps", true, none⟩],
     [], [], 100, 1⟩
    [Op.reqMatch 1 "rps" 0, Op.reqMatch 2 "rps" 1,
     Op.choose 1 100 Choice.rock 2] 1 "rps" 0
    ⟨by decide, by decide⟩
  refine ⟨h.1 ?_, h.2 ⟨10, "rps", true, none⟩ ⟨1, "alice", none⟩
    (by decide) (by decide)⟩
  intro p g
  unfold activeCount
  simp

/-- Counterexample to C7 as stated (globally, across games): after two
match requests for two different games, the player holds two active
sessions at once, because `requestMatch` cancels the requester's stale
sessions only within the requested game. -/
theorem active_sessions_global_counterexample :
    ((runOps
      ⟨[⟨1, "alice", none⟩],
       [⟨10, "a", true, none⟩, ⟨20, "b", true, none⟩], [], [], 100, 1⟩
      [Op.reqMatch 1 "a" 0, Op.reqMatch 1 "b" 1]).sessions.countP
      fun s => decide ((s.player1_id = 1 ∨ s.player2_id = some 1) ∧
        (s.status = SessionStatus.waiting ∨
          s.status = SessionStatus.playing))) = 2 := by
  decide
